import Mathlib

/-!
# cclient-v2: header maps, request building, response decoding, client construction

A shallow embedding of `types.go`, `request.go`, `response.go` and `client.go`.

* A Go `map[string]T` is an association list with distinct keys (`GoMap T`); the order of the
  list is the order in which `range` visits the entries.  A nil map reads like the empty map
  and panics when it is written; the two header maps of a request carry the flag `headerNil`.
* A pointer to a client is modelled by the state of the client it points to at the moment the
  request is used; `Request.withClient` is the request as it sees a client changed later.
* A Go call ends in one of three ways, recorded by `Result`: it returns a value, it returns a
  non-nil `error`, or it panics at run time.
* Functions of other packages (`strings`, `net/textproto`, `fhttp`, `compress/*`, the network)
  are not part of the repository; they are the fields of `Lib`, so that every theorem holds for
  whatever those functions compute.  `refLib` is one concrete instance used for evaluation.
-/

namespace Cclient

/-! ## Go maps and call outcomes -/

/-- How a Go call ends: `ok a` returns `a` (with a nil error), `err e` returns a non-nil error,
`panic e` is a run-time panic. -/
inductive Result (α : Type) where
  | ok (a : α)
  | err (e : String)
  | panic (e : String)
  deriving DecidableEq, Repr

/-- Sequencing of Go statements: an error return or a panic ends the function. -/
def Result.bind {α β : Type} (x : Result α) (f : α → Result β) : Result β :=
  match x with
  | .ok a => f a
  | .err e => .err e
  | .panic e => .panic e

/-- A Go `map[string]β`. -/
abbrev GoMap (β : Type) := List (String × β)

/-- The two-valued map read `v, ok := m[k]`. -/
def GoMap.get? {β : Type} : GoMap β → String → Option β
  | [], _ => none
  | (k', v) :: m, k => if k' = k then some v else GoMap.get? m k

/-- The map write `m[k] = v`: replaces the entry of `k` or adds one. -/
def GoMap.set {β : Type} : GoMap β → String → β → GoMap β
  | [], k, v => [(k, v)]
  | (k', v') :: m, k, v => if k' = k then (k, v) :: m else (k', v') :: GoMap.set m k v

/-- Header maps of `net/http`, `fhttp` and of this package (`type Header map[string][]string`). -/
abbrev Header := GoMap (List String)

/-- The one-valued read `h[k]`: the values of `k`, nil when the key is absent. -/
def Header.index (h : Header) (k : String) : List String :=
  (GoMap.get? h k).getD []

/-- The first element `v[0]` of a slice; indexing an empty slice panics. -/
def index0 {β : Type} : List β → Result β
  | [] => .panic "index out of range [0] with length 0"
  | v0 :: _ => .ok v0

/-- Go `strings.Contains(s, substr)` . -/
def stringsContains (s substr : String) : Bool :=
  decide (List.IsInfix substr.data s.data)

/-- The scan of Go `strings.Replace(s, old, new, -1)` for a non-empty `old`, on characters:
matches are taken from left to right and do not overlap; `skip` counts the characters of the
match just found that are still to be dropped. -/
def replaceChars (old new : List Char) : Nat → List Char → List Char
  | _, [] => []
  | skip + 1, _ :: cs => replaceChars old new skip cs
  | 0, c :: cs =>
    if (c :: cs).take old.length = old then new ++ replaceChars old new (old.length - 1) cs
    else c :: replaceChars old new 0 cs

/-- Go `strings.Replace(s, old, new, -1)`. An empty `old` matches at the beginning of the
string and after every character. -/
def stringsReplaceAll (s old new : String) : String :=
  if old.data = [] then ⟨new.data ++ s.data.flatMap fun c => c :: new.data⟩
  else ⟨replaceChars old.data new.data 0 s.data⟩

/-! ## types.go -/

/-- The type `tlsUtls.ClientHelloID`; its zero value has empty fields. -/
structure ClientHelloID where
  Client : String := ""
  Version : String := ""
  deriving DecidableEq, Repr

/-- A cookie of `net/http`. -/
structure Cookie where
  Name : String := ""
  Value : String := ""
  Path : String := ""
  Domain : String := ""
  Expires : Int := 0
  RawExpires : String := ""
  MaxAge : Int := 0
  Secure : Bool := false
  HttpOnly : Bool := false
  SameSite : Int := 0
  Raw : String := ""
  Unparsed : List String := []
  deriving DecidableEq, Repr

/-- A cookie of `fhttp` (the fork of `net/http` used on the TLS path). -/
structure TLSCookie where
  Name : String := ""
  Value : String := ""
  Path : String := ""
  Domain : String := ""
  Expires : Int := 0
  RawExpires : String := ""
  MaxAge : Int := 0
  Secure : Bool := false
  HttpOnly : Bool := false
  SameSite : Int := 0
  Raw : String := ""
  Unparsed : List String := []
  deriving DecidableEq, Repr

/-- The dialer given to the round tripper: `proxy.Direct` or a CONNECT dialer for a proxy URL. -/
inductive Dialer where
  | direct
  | connect (proxyUrl : String)
  deriving DecidableEq, Repr

/-- Modelled from the spec: `newRoundTripper` is not under src/; the fingerprinted transport is
represented by the ClientHello id, the HTTP/2 settings and the dialer it was built from. -/
structure RoundTripper where
  clientHello : ClientHelloID
  http2Headers : Option (List (Nat × Nat))
  dialer : Dialer
  deriving DecidableEq, Repr

/-- A cookie jar, as the list of `SetCookies(u, cookies)` calls it has received. -/
abbrev Jar (κ : Type) := List (String × List κ)

/-- The `*tlsHttp.Client` held by a TLS client. -/
structure TLSHttpClient where
  Jar : Jar TLSCookie
  Transport : RoundTripper
  Timeout : Int
  deriving DecidableEq, Repr

/-- The `http.Transport` built for a non-TLS client. -/
structure HTTPTransport where
  ForceAttemptHTTP2 : Bool
  InsecureSkipVerify : Bool
  Proxy : Option String
  deriving DecidableEq, Repr

/-- The `*http.Client` held by a non-TLS client. -/
structure HTTPClient where
  Transport : HTTPTransport
  Jar : Jar Cookie
  Timeout : Int
  deriving DecidableEq, Repr

/-- The `Client` struct of types.go. A nil pointer or nil map is `none`, a nil slice is `[]`. -/
structure Client where
  Context : Option Nat := none
  proxy : String := ""
  useTLS : Bool := false
  MasterHeaderOrder : List String := []
  http2Headers : Option (List (Nat × Nat)) := none
  tlsClient : Option TLSHttpClient := none
  clientHello : ClientHelloID := {}
  httpClient : Option HTTPClient := none
  deriving DecidableEq, Repr

/-- The `TLSRequest` struct. The `client` pointer is modelled by the state of the client it
points to (`none` is the nil pointer). `header` holds the entries of the header map and
`headerNil` tells whether that map is the nil map, as it is in the zero value of the struct;
`NewRequest` allocates it. -/
structure TLSRequest where
  client : Option Client := none
  method : String := ""
  url : String := ""
  host : String := ""
  header : Header := []
  headerNil : Bool := true
  body : Option String := none
  cookies : List TLSCookie := []
  deriving DecidableEq, Repr

/-- The `HTTPRequest` struct, the non-TLS twin of `TLSRequest`, with the same reading of
`client`, `header` and `headerNil`. -/
structure HTTPRequest where
  client : Option Client := none
  method : String := ""
  url : String := ""
  host : String := ""
  header : Header := []
  headerNil : Bool := true
  body : Option String := none
  cookies : List Cookie := []
  deriving DecidableEq, Repr

/-- The `Request` struct: the base request with its TLS and non-TLS halves. The value `{}` is
the zero value `Request{}`: not a TLS request, no client, both header maps nil. -/
structure Request where
  useTLS : Bool := false
  Context : Option Nat := none
  HeaderOrder : List String := []
  TLSRequest : TLSRequest := {}
  HTTPRequest : HTTPRequest := {}
  deriving DecidableEq, Repr

/-! ## request.go: the header setters -/

/-- The method `Request.SetURL` (request.go 15-23). -/
def Request.SetURL (r : Request) (url : String) : Request :=
  if r.useTLS then { r with TLSRequest := { r.TLSRequest with url := url } }
  else { r with HTTPRequest := { r.HTTPRequest with url := url } }

/-- The method `Request.SetMethod` (request.go 26-34). -/
def Request.SetMethod (r : Request) (method : String) : Request :=
  if r.useTLS then { r with TLSRequest := { r.TLSRequest with method := method } }
  else { r with HTTPRequest := { r.HTTPRequest with method := method } }

/-- The request after `Request.AddHeader` (request.go 39-61) has returned: the statements of
the method with the map write carried out. Whether the call returns at all is
`Request.AddHeaderCall`. -/
def Request.AddHeader (r : Request) (key value : String) : Request :=
  if value.length = 0 then r
  else if r.useTLS then
    match GoMap.get? r.TLSRequest.header key with
    | some header =>
      { r with TLSRequest :=
          { r.TLSRequest with header := GoMap.set r.TLSRequest.header key (header ++ [value]) } }
    | none =>
      { r with TLSRequest :=
          { r.TLSRequest with header := GoMap.set r.TLSRequest.header key [value] } }
  else
    match GoMap.get? r.HTTPRequest.header key with
    | some header =>
      { r with HTTPRequest :=
          { r.HTTPRequest with header := GoMap.set r.HTTPRequest.header key (header ++ [value]) } }
    | none =>
      { r with HTTPRequest :=
          { r.HTTPRequest with header := GoMap.set r.HTTPRequest.header key [value] } }

/-- The call of the method `Request.AddHeader` (request.go 39-61) with its outcome: an empty
value returns at once; otherwise the header map of the half in use is read, which a nil map
allows, and then written (line 47 or 49, line 54 or 56), which panics on a nil map. -/
def Request.AddHeaderCall (r : Request) (key value : String) : Result Request :=
  if value.length = 0 then .ok r
  else if r.useTLS then
    if r.TLSRequest.headerNil then .panic "assignment to entry in nil map"
    else .ok (r.AddHeader key value)
  else
    if r.HTTPRequest.headerNil then .panic "assignment to entry in nil map"
    else .ok (r.AddHeader key value)

/-- The request after `Request.SetHeader` (request.go 94-109) has returned: the statements of
the method with the map write carried out. Whether the call returns at all is
`Request.SetHeaderCall`. -/
def Request.SetHeader (r : Request) (key value : String) : Request :=
  if value.length = 0 then r
  else if stringsContains key "x-instana" then r
  else if r.useTLS then
    { r with TLSRequest := { r.TLSRequest with header := GoMap.set r.TLSRequest.header key [value] } }
  else
    { r with HTTPRequest :=
        { r.HTTPRequest with header := GoMap.set r.HTTPRequest.header key [value] } }

/-- The call of the method `Request.SetHeader` (request.go 94-109) with its outcome: an empty
value or a key with `x-instana` returns at once; otherwise the header map of the half in use
is written (line 104 or 106), which panics on a nil map. -/
def Request.SetHeaderCall (r : Request) (key value : String) : Result Request :=
  if value.length = 0 then .ok r
  else if stringsContains key "x-instana" then .ok r
  else if r.useTLS then
    if r.TLSRequest.headerNil then .panic "assignment to entry in nil map"
    else .ok (r.SetHeader key value)
  else
    if r.HTTPRequest.headerNil then .panic "assignment to entry in nil map"
    else .ok (r.SetHeader key value)

/-- The method `Request.SetHeaderOrder` (request.go 157-163): the assignment in the TLS branch
is commented out in the source, so both branches return the request as it is. -/
def Request.SetHeaderOrder (r : Request) (_order : List String) : Request :=
  if r.useTLS then r else r

/-- The double quote character as a string. -/
def dquote : String := ⟨[Char.ofNat 34]⟩

/-- The method `Request.SetSecHeaders` (request.go 63-78); the first value is the result of
`fmt.Sprintf` with the version in its three places. -/
def Request.SetSecHeaders (r : Request) (version : List String) : Request :=
  let v := match version with
    | [] => "99"
    | v0 :: _ => v0
  ((((((r.AddHeader "sec-ch-ua"
      (dquote ++ " Not A;Brand" ++ dquote ++ ";v=" ++ dquote ++ v ++ dquote ++ ", "
        ++ dquote ++ "Chromium" ++ dquote ++ ";v=" ++ dquote ++ v ++ dquote ++ ", "
        ++ dquote ++ "Google Chrome" ++ dquote ++ ";v=" ++ dquote ++ v ++ dquote)).AddHeader
      "sec-ch-ua-mobile" "?0").AddHeader
      "sec-ch-ua-platform" (dquote ++ "Windows" ++ dquote)).AddHeader
      "sec-fetch-dest" "").AddHeader
      "sec-fetch-dest" "document").AddHeader
      "sec-fetch-mode" "navigate").AddHeader
      "sec-fetch-site" "none"

/-- The method `Request.SetUserAgent` (request.go 80-82). -/
def Request.SetUserAgent (r : Request) (ua : String) : Request :=
  r.AddHeader "user-agent" ua

/-- The method `Request.SetHeaders` (request.go 84-90); the list holds the entries of the map
argument in the order `range` visits them. -/
def Request.SetHeaders (r : Request) (headers : GoMap String) : Request :=
  headers.foldl (fun r kv => r.SetHeader kv.1 kv.2) r

/-- One call of a header method on a request. -/
inductive HeaderCall where
  | addHeader (key value : String)
  | setHeader (key value : String)
  | setHeaders (headers : GoMap String)
  | setUserAgent (ua : String)
  | setSecHeaders (version : List String)
  deriving DecidableEq, Repr

/-- The request after one call of a header method. -/
def HeaderCall.run (r : Request) : HeaderCall → Request
  | .addHeader key value => r.AddHeader key value
  | .setHeader key value => r.SetHeader key value
  | .setHeaders headers => r.SetHeaders headers
  | .setUserAgent ua => r.SetUserAgent ua
  | .setSecHeaders version => r.SetSecHeaders version

/-! ## Functions of other packages -/

/-- Raw bytes of a body. -/
abbrev Bytes := List Nat

/-- A `*http.Request` or `*tlsHttp.Request` (the two types have the same fields). -/
structure HttpRequest where
  Method : String := ""
  URL : String := ""
  Header : Header := []
  Body : Option String := none
  Host : String := ""
  ctx : Option Nat := none
  deriving DecidableEq, Repr

/-- A `*http.Response` or `*tlsHttp.Response`, with `Body` the outcome of `io.ReadAll` on it
(the bytes, or the read error) and `RequestURL` the field `Request.URL`. -/
structure HttpResponse where
  Status : String := ""
  StatusCode : Int := 0
  Header : Header := []
  Body : Except String Bytes := .ok []
  RequestURL : String := ""

/-- The functions of other packages that the source calls. -/
structure Lib where
  /-- Go `strings.ToLower`. -/
  toLower : String → String
  /-- Go `textproto.CanonicalMIMEHeaderKey`, used by `Header.Get` and `Header.Set`. -/
  canonicalMIMEHeaderKey : String → String
  /-- The checks of `NewRequest` on method and URL: the error, or the host of the parsed URL. -/
  newRequestHost : String → String → Except String String
  /-- Go `url.Parse`, reduced to the error it returns, if any. -/
  urlParseError : String → Option String
  /-- The `Host` field of the URL that `url.Parse` returns when it returns no error. -/
  urlParseHost : String → String
  /-- The repository's `newConnectDialer` (not under src/), reduced to its error, if any. -/
  newConnectDialerError : String → Option String
  /-- Go `Request.AddCookie` as a function on the request's header map. -/
  addCookie : Header → Cookie → Header
  /-- Go `Request.Cookies()` of fhttp: the cookies parsed from the request's header map. -/
  tlsRequestCookies : Header → List TLSCookie
  /-- Go `Response.Cookies()` of fhttp: the cookies parsed from the `Set-Cookie` headers. -/
  tlsResponseCookies : Header → List TLSCookie
  /-- Go `Request.Cookies()` of net/http. -/
  requestCookies : Header → List Cookie
  /-- Go `Response.Cookies()` of net/http. -/
  responseCookies : Header → List Cookie
  /-- The call `c.tlsClient.Do(req)`: the error, or the request as the client left it (the jar's
  cookies are added to its header) and the response. -/
  tlsDo : TLSHttpClient → HttpRequest → Except String (HttpRequest × HttpResponse)
  /-- The call `c.httpClient.Do(req)`. -/
  httpDo : HTTPClient → HttpRequest → Except String (HttpRequest × HttpResponse)
  /-- The library call `mimetype.Detect(body).String()`. -/
  mimeDetect : Bytes → String
  /-- Go `gzip.NewReader` on the data: `none` when it returns a nil reader and an error (the
  gzip header is read at once); otherwise what `ioutil.ReadAll` returns on the reader. -/
  gzipNewReader : Bytes → Option (Bytes × Option String)
  /-- Go `zlib.NewReader` on the data, in the same way. -/
  zlibNewReader : Bytes → Option (Bytes × Option String)
  /-- The call `brotli.NewReader` (which cannot fail) followed by `ioutil.ReadAll`. -/
  brotliReadAll : Bytes → Bytes × Option String

/-- The constant `tlsHttp.HeaderOrderKey`. -/
def HeaderOrderKey : String := "Header-Order:"

/-- The constant `tlsHttp.PHeaderOrderKey`. -/
def PHeaderOrderKey : String := "PHeader-Order:"

/-- The constructor `NewRequest` of net/http and fhttp: an invalid method or URL is an error;
the new request has an empty, allocated header map and the URL's host as `Host`. -/
def libNewRequest (lib : Lib) (method url : String) (body : Option String) : Result HttpRequest :=
  match lib.newRequestHost method url with
  | .error e => .err e
  | .ok host =>
    .ok { Method := if method = "" then "GET" else method, URL := url, Header := [],
          Body := body, Host := host }

/-- Go `Header.Set(key, value)`: `h[CanonicalMIMEHeaderKey(key)] = []string{value}`. -/
def Header.Set (lib : Lib) (h : Header) (key value : String) : Header :=
  GoMap.set h (lib.canonicalMIMEHeaderKey key) [value]

/-- The method `Header.Get` of types.go (68-70), through `textproto.MIMEHeader.Get`: the first
value of the canonical key, or the empty string. -/
def Header.Get (lib : Lib) (h : Header) (key : String) : String :=
  match Header.index h (lib.canonicalMIMEHeaderKey key) with
  | [] => ""
  | v0 :: _ => v0

/-! ## client.go: construction -/

/-- One optional argument of `NewClient` (an `interface{}` value), by its dynamic type. -/
inductive OptParam where
  | clientHelloID (id : ClientHelloID)
  | settings (m : Option (List (Nat × Nat)))
  | other (description : String)
  deriving DecidableEq, Repr

/-- The type assertion `optParams[0].(tlsUtls.ClientHelloID)`. -/
def OptParam.assertClientHelloID : OptParam → Result ClientHelloID
  | .clientHelloID id => .ok id
  | _ => .panic "interface conversion: interface {} is not utls.ClientHelloID"

/-- The type assertion `optParams[1].(map[http2.SettingID]uint32)`. -/
def OptParam.assertSettings : OptParam → Result (Option (List (Nat × Nat)))
  | .settings m => .ok m
  | _ => .panic "interface conversion: interface {} is not map[http2.SettingID]uint32"

/-- The function `NewClient` (client.go 28-110). -/
def NewClient (lib : Lib) (proxyUrl : String) (timeout : Int) (useTLS : Bool)
    (optParams : List OptParam) : Result Client :=
  if !useTLS then
    let transport : HTTPTransport :=
      { ForceAttemptHTTP2 := true, InsecureSkipVerify := true, Proxy := none }
    let mk (t : HTTPTransport) : Result Client :=
      .ok { httpClient := some { Transport := t, Jar := [], Timeout := timeout },
            http2Headers := none, useTLS := false, proxy := proxyUrl }
    if proxyUrl.length > 0 then
      match lib.urlParseError proxyUrl with
      | some e => .err e
      | none => mk { transport with Proxy := some proxyUrl }
    else mk transport
  else
    match optParams with
    | [] => .err "missing client hello"
    | p0 :: rest =>
      (OptParam.assertClientHelloID p0).bind fun clientHello =>
      (match rest with
        | [] => Result.ok none
        | p1 :: _ => OptParam.assertSettings p1).bind fun http2Headers =>
      if proxyUrl.length > 0 then
        match lib.urlParseError proxyUrl with
        | some e => .err e
        | none =>
          match lib.newConnectDialerError proxyUrl with
          | some e => .err e
          | none =>
            .ok { tlsClient := some
                    { Jar := [],
                      Transport := ⟨clientHello, http2Headers, Dialer.connect proxyUrl⟩,
                      Timeout := timeout },
                  useTLS := true, clientHello := clientHello, http2Headers := http2Headers,
                  proxy := proxyUrl }
      else
        .ok { tlsClient := some
                { Transport := ⟨clientHello, http2Headers, Dialer.direct⟩,
                  Timeout := timeout, Jar := [] },
              useTLS := true, http2Headers := http2Headers, proxy := proxyUrl }

/-- The method `Client.SetMasterHeaderOrder` (client.go 113-117). -/
def Client.SetMasterHeaderOrder (c : Client) (order : List String) : Client :=
  if c.useTLS then { c with MasterHeaderOrder := order } else c

/-- The method `Client.NewRequest` (client.go 119-139). The request keeps the pointer to the
client: `client` is the state of `c` now, and `Request.withClient` gives the request as it
sees the client after a later change. The header map of the half in use is allocated. -/
def Client.NewRequest (c : Client) : Request :=
  if c.useTLS then
    { Context := c.Context, useTLS := true,
      TLSRequest := { client := some c, header := [], headerNil := false } }
  else
    { Context := c.Context, useTLS := false,
      HTTPRequest := { client := some c, header := [], headerNil := false } }

/-- The request as it sees its client after the client was changed through the pointer that
`NewRequest` stored (a call of `c.SetMasterHeaderOrder`, `c.UpdateProxy`, ... between
`NewRequest` and `Do`): the pointer of the half in use now leads to the state `c`. -/
def Request.withClient (r : Request) (c : Client) : Request :=
  if r.useTLS then { r with TLSRequest := { r.TLSRequest with client := some c } }
  else { r with HTTPRequest := { r.HTTPRequest with client := some c } }

/-- The method `Client.UpdateProxy` (client.go 225-259): the client afterwards and the returned
flag. The new transport is built from the client's stored `clientHello` and `http2Headers`. -/
def Client.UpdateProxy (lib : Lib) (c : Client) (p : String) : Result (Client × Bool) :=
  if c.useTLS then
    if p.length > 0 then
      match lib.newConnectDialerError p with
      | some _ => .ok (c, false)
      | none =>
        match c.tlsClient with
        | none => .panic "invalid memory address or nil pointer dereference"
        | some tlsClient =>
          .ok ({ c with
                  tlsClient := some { tlsClient with
                    Transport := ⟨c.clientHello, c.http2Headers, Dialer.connect p⟩ },
                  proxy := p }, true)
    else
      match c.tlsClient with
      | none => .panic "invalid memory address or nil pointer dereference"
      | some tlsClient =>
        .ok ({ c with
                tlsClient := some { tlsClient with
                  Transport := ⟨c.clientHello, c.http2Headers, Dialer.direct⟩ },
                proxy := p }, true)
  else
    let transport : HTTPTransport :=
      { ForceAttemptHTTP2 := true, InsecureSkipVerify := true,
        Proxy := if p.length > 0 then
                   (match lib.urlParseError p with
                    | some _ => none
                    | none => some p)
                 else none }
    match c.httpClient with
    | none => .panic "invalid memory address or nil pointer dereference"
    | some httpClient =>
      .ok ({ c with proxy := p, httpClient := some { httpClient with Transport := transport } },
           true)

/-- The method `Client.SetCookieValue` (client.go 261-291): the client afterwards, whose jar
has received one more `SetCookies` call. The error of `url.Parse` is discarded, so after a
failed parse the nil URL is dereferenced. -/
def Client.SetCookieValue (lib : Lib) (c : Client) (cookieUrl cookieName value : String)
    (path : List String) : Result Client :=
  match lib.urlParseError cookieUrl with
  | some _ => .panic "invalid memory address or nil pointer dereference"
  | none =>
    let path0 : String := match path with
      | p0 :: _ => p0
      | [] => "/"
    if c.useTLS then
      let newCookie : TLSCookie :=
        { Name := cookieName, Value := value,
          Domain := stringsReplaceAll (lib.urlParseHost cookieUrl) "www" "", Path := path0 }
      match c.tlsClient with
      | none => .panic "invalid memory address or nil pointer dereference"
      | some tlsClient =>
        .ok { c with tlsClient := some { tlsClient with
                Jar := tlsClient.Jar ++ [(cookieUrl, [] ++ [newCookie])] } }
    else
      let newCookie : Cookie :=
        { Name := cookieName, Value := value,
          Domain := stringsReplaceAll (lib.urlParseHost cookieUrl) "www" "", Path := path0 }
      match c.httpClient with
      | none => .panic "invalid memory address or nil pointer dereference"
      | some httpClient =>
        .ok { c with httpClient := some { httpClient with
                Jar := httpClient.Jar ++ [(cookieUrl, [] ++ [newCookie])] } }

/-! ## client.go: sending -/

/-- The `Response` struct of types.go. -/
structure Response where
  request : Option HttpRequest := none
  requestCookies : List Cookie := []
  cookies : List Cookie := []
  IsTLS : Bool := false
  headers : Header := []
  body : Bytes := []
  reqUrl : String := ""
  status : String := ""
  statusCode : Int := 0
  deriving DecidableEq, Repr

/-- The field-by-field copy of an fhttp cookie into a net/http cookie (client.go 408-421 and
426-439). -/
def toHTTPCookie (v : TLSCookie) : Cookie :=
  { Name := v.Name, Value := v.Value, Path := v.Path, Domain := v.Domain, Expires := v.Expires,
    RawExpires := v.RawExpires, MaxAge := v.MaxAge, Secure := v.Secure, HttpOnly := v.HttpOnly,
    SameSite := v.SameSite, Raw := v.Raw, Unparsed := v.Unparsed }

/-- The loop `for k, v := range src { dst[k] = v }` into a fresh header map. -/
def copyHeader (src : Header) : Header :=
  src.foldl (fun dst kv => GoMap.set dst kv.1 kv.2) []

/-- The function `transformRequest` (client.go 508-533). -/
def transformRequest (r : HttpRequest) : HttpRequest :=
  { Method := r.Method, URL := r.URL, Header := copyHeader r.Header, Body := r.Body,
    Host := r.Host }

/-- The method `Client.Do` (client.go 387-484). Passing nil for the request that is used
panics inside the library client. The response is what `Do` returns; the change of the jar
inside the library client is not tracked. -/
def Client.Do (lib : Lib) (c : Client) (tlsRequest httpRequest : Option HttpRequest)
    (useTLS : Bool) : Result Response :=
  if useTLS then
    match c.tlsClient, tlsRequest with
    | none, _ => .panic "invalid memory address or nil pointer dereference"
    | some _, none => .panic "invalid memory address or nil pointer dereference"
    | some tlsClient, some req =>
      match lib.tlsDo tlsClient req with
      | .error e => .err e
      | .ok (sent, resp) =>
        match resp.Body with
        | .error e => .err e
        | .ok body =>
          let headers := copyHeader resp.Header
          let cookies : List Cookie :=
            (lib.tlsResponseCookies resp.Header).foldl (fun cs v => cs ++ [toHTTPCookie v]) []
          let requestCookies : List Cookie := []
          let cookies : List Cookie :=
            (lib.tlsRequestCookies sent.Header).foldl (fun cs v => cs ++ [toHTTPCookie v]) cookies
          .ok { request := some (transformRequest sent), requestCookies := requestCookies,
                cookies := cookies, headers := headers, body := body, status := resp.Status,
                reqUrl := resp.RequestURL, statusCode := resp.StatusCode }
  else
    match c.httpClient, httpRequest with
    | none, _ => .panic "invalid memory address or nil pointer dereference"
    | some _, none => .panic "invalid memory address or nil pointer dereference"
    | some httpClient, some req =>
      match lib.httpDo httpClient req with
      | .error e => .err e
      | .ok (sent, resp) =>
        match resp.Body with
        | .error e => .err e
        | .ok body =>
          let headers := copyHeader resp.Header
          .ok { requestCookies := lib.requestCookies sent.Header, request := some sent,
                headers := headers, cookies := lib.responseCookies resp.Header, body := body,
                status := resp.Status, reqUrl := resp.RequestURL,
                statusCode := resp.StatusCode }

/-! ## request.go: Do -/

/-- The built-in default header order of `Request.Do` (request.go 181-210). -/
def defaultHeaderOrder : List String :=
  ["host", "connection", "cache-control", "device-memory", "viewport-width", "rtt", "downlink",
   "ect", "sec-ch-ua", "sec-ch-ua-mobile", "sec-ch-ua-full-version", "sec-ch-ua-arch",
   "sec-ch-ua-platform", "sec-ch-ua-platform-version", "sec-ch-ua-model",
   "upgrade-insecure-requests", "user-agent", "accept", "sec-fetch-site", "sec-fetch-mode",
   "sec-fetch-user", "sec-fetch-dest", "referer", "accept-encoding", "accept-language",
   "cookie", "content-type", "authorization"]

/-- The local `headerOrder` of `Request.Do` (request.go 174-216): the active header order.
Reading the master order dereferences the client pointer. -/
def Request.headerOrder (r : Request) : Result (List String) :=
  if r.HeaderOrder.length ≠ 0 then .ok r.HeaderOrder
  else
    match r.TLSRequest.client with
    | none => .panic "invalid memory address or nil pointer dereference"
    | some client =>
      if client.MasterHeaderOrder.length ≠ 0 then .ok client.MasterHeaderOrder
      else .ok defaultHeaderOrder

/-- The inner loop of request.go 223-228 for one `key` of the order: every header key whose
lower-case form is `key` is entered in `headerMap` with its first value. -/
def matchLoop (lib : Lib) (key : String) :
    List (String × List String) → GoMap String → Result (GoMap String)
  | [], headerMap => .ok headerMap
  | (k, v) :: rest, headerMap =>
    if key = lib.toLower k then
      (index0 v).bind fun v0 => matchLoop lib key rest (GoMap.set headerMap k v0)
    else matchLoop lib key rest headerMap

/-- The loop of request.go 221-229 over the active header order, on the pair
`(headerMap, headerOrderKey)`. -/
def orderLoop (lib : Lib) (header : Header) :
    List String → GoMap String × List String → Result (GoMap String × List String)
  | [], st => .ok st
  | key :: rest, (headerMap, headerOrderKey) =>
    (matchLoop lib key header headerMap).bind fun headerMap1 =>
      orderLoop lib header rest (headerMap1, headerOrderKey ++ [key])

/-- The loop of request.go 231-236 over a header map: every key not yet in `headerMap` is
entered and its lower-case form is appended to `headerOrderKey`. -/
def restLoop (lib : Lib) :
    List (String × List String) → GoMap String × List String →
      Result (GoMap String × List String)
  | [], st => .ok st
  | (k, v) :: rest, (headerMap, headerOrderKey) =>
    match GoMap.get? headerMap k with
    | some _ => restLoop lib rest (headerMap, headerOrderKey)
    | none =>
      (index0 v).bind fun v0 =>
        restLoop lib rest (GoMap.set headerMap k v0, headerOrderKey ++ [lib.toLower k])

/-- The loop of request.go 248-250: `req.Header.Set(k, v[0])` for every entry. -/
def setLoop (lib : Lib) : List (String × List String) → Header → Result Header
  | [], h => .ok h
  | (k, v) :: rest, h => (index0 v).bind fun v0 => setLoop lib rest (Header.Set lib h k v0)

/-- The request `req` that the TLS branch of `Request.Do` builds and hands to `Client.Do`
(request.go 168-260). The second loop ranges over `req.Header`, the header map of the request
that `NewRequest` has just made. -/
def Request.DoTLSRequest (lib : Lib) (r : Request) : Result HttpRequest :=
  (libNewRequest lib r.TLSRequest.method r.TLSRequest.url r.TLSRequest.body).bind fun req =>
  r.headerOrder.bind fun headerOrder =>
  (orderLoop lib r.TLSRequest.header headerOrder ([], [])).bind fun st1 =>
  (restLoop lib req.Header st1).bind fun st2 =>
  let header0 : Header :=
    [(HeaderOrderKey, st2.2), (PHeaderOrderKey, [":method", ":authority", ":scheme", ":path"])]
  (setLoop lib r.TLSRequest.header header0).bind fun header1 =>
  let req1 : HttpRequest :=
    if r.TLSRequest.host.length > 0 then
      { req with Header := header1, Host := r.TLSRequest.host }
    else { req with Header := header1 }
  match r.Context with
  | some ctx => .ok { req1 with ctx := some ctx }
  | none => .ok req1

/-- The request that the non-TLS branch of `Request.Do` builds (request.go 265-285): the
cookies are added to the header map of the new request, which is then replaced as a whole by
the request's header map. -/
def Request.DoHTTPRequest (lib : Lib) (r : Request) : Result HttpRequest :=
  (libNewRequest lib r.HTTPRequest.method r.HTTPRequest.url r.HTTPRequest.body).bind fun req =>
  let req0 : HttpRequest :=
    { req with Header := r.HTTPRequest.cookies.foldl lib.addCookie req.Header }
  let req1 : HttpRequest := { req0 with Header := r.HTTPRequest.header }
  let req2 : HttpRequest :=
    if r.HTTPRequest.host.length > 0 then { req1 with Host := r.HTTPRequest.host } else req1
  match r.Context with
  | some ctx => .ok { req2 with ctx := some ctx }
  | none => .ok req2

/-- The method `Request.Do` (request.go 166-288). -/
def Request.Do (lib : Lib) (r : Request) : Result Response :=
  if r.useTLS then
    (r.DoTLSRequest lib).bind fun req =>
      match r.TLSRequest.client with
      | none => .panic "invalid memory address or nil pointer dereference"
      | some client => client.Do lib (some req) none true
  else
    (r.DoHTTPRequest lib).bind fun req =>
      match r.HTTPRequest.client with
      | none => .panic "invalid memory address or nil pointer dereference"
      | some client => client.Do lib none (some req) false

/-! ## response.go -/

/-- The function `gUnzipData` (response.go 79-84): the error of `gzip.NewReader` is discarded,
so after a failed `NewReader` the nil reader is read and closed, which panics. The result is
the pair `(respBody, err)`. -/
def gUnzipData (lib : Lib) (data : Bytes) : Result (Bytes × Option String) :=
  match lib.gzipNewReader data with
  | none => .panic "invalid memory address or nil pointer dereference"
  | some out => .ok out

/-- The function `enflateData` (response.go 85-90), built like `gUnzipData` on
`zlib.NewReader`. -/
def enflateData (lib : Lib) (data : Bytes) : Result (Bytes × Option String) :=
  match lib.zlibNewReader data with
  | none => .panic "invalid memory address or nil pointer dereference"
  | some out => .ok out

/-- The function `unBrotliData` (response.go 92-96). -/
def unBrotliData (lib : Lib) (data : Bytes) : Result (Bytes × Option String) :=
  .ok (lib.brotliReadAll data)

/-- The statement `if err != nil { fmt.Println(err) }` as the lines it prints. -/
def printErr : Option String → List String
  | none => []
  | some e => [e]

/-- The method `Response.Body` (response.go 28-62): the returned bytes together with the lines
printed on the way. The response itself is only read. -/
def Response.Body (lib : Lib) (r : Response) (params : List String) :
    Result (Bytes × List String) :=
  let encoding := Header.Get lib r.headers "Content-Encoding"
  let body := r.body
  let printed := [lib.mimeDetect body]
  if encoding.length > 0 || (encoding.length = 0 && params.length > 0) then
    let encoding := match params with
      | p0 :: _ => p0
      | [] => encoding
    if encoding = "gzip" then
      (gUnzipData lib body).bind fun out => .ok (out.1, printed ++ printErr out.2)
    else if encoding = "deflate" then
      (enflateData lib body).bind fun out => .ok (out.1, printed ++ printErr out.2)
    else if encoding = "br" then
      (unBrotliData lib body).bind fun out => .ok (out.1, printed ++ printErr out.2)
    else .ok (body, printed ++ ["UNKNOWN ENCODING: " ++ encoding])
  else .ok (body, printed)

/-- The method `Response.Cookies` (response.go 23-25). -/
def Response.Cookies (r : Response) : List Cookie := r.cookies

/-- The method `Response.RequestCookies` (response.go 69-71). -/
def Response.RequestCookies (r : Response) : List Cookie := r.requestCookies

/-! ## A reference instance of the library

ASCII case mapping, a `name=value` cookie reader, decoders that check the header of the data
only, and a server that answers every request with one fixed response. -/

/-- ASCII lower-casing, which is `strings.ToLower` on ASCII strings. -/
def asciiLower (s : String) : String := ⟨s.data.map Char.toLower⟩

/-- The token characters of a header key: letters, digits and the marks of RFC 7230. -/
def isTokenChar (c : Char) : Bool :=
  c.isAlphanum || [33, 35, 36, 37, 38, 39, 42, 43, 45, 46, 94, 95, 96, 124, 126].contains c.toNat

/-- Upper-case the first letter and every letter after a hyphen, lower-case the others. -/
def canonicalChars : Bool → List Char → List Char
  | _, [] => []
  | upper, c :: cs => (if upper then c.toUpper else c.toLower) :: canonicalChars (c == '-') cs

/-- The canonical form of a header key, as `textproto.CanonicalMIMEHeaderKey` describes it: a
key with a character outside the token characters is returned unchanged. -/
def canonicalKey (s : String) : String :=
  if s.data.all isTokenChar then ⟨canonicalChars true s.data⟩ else s

/-- The part of a URL after `://`. -/
def dropScheme : List Char → List Char
  | [] => []
  | c :: cs =>
    match c, cs with
    | ':', '/' :: '/' :: rest => rest
    | _, _ => dropScheme cs

/-- The host of a URL: what stands between `://` and the next `/`. -/
def urlHost (url : String) : String := ⟨(dropScheme url.data).takeWhile (· ≠ '/')⟩

/-- Split a character list at every `sep`. -/
def splitChars (sep : Char) : List Char → List (List Char)
  | [] => [[]]
  | c :: cs =>
    if c = sep then [] :: splitChars sep cs
    else
      match splitChars sep cs with
      | [] => [[c]]
      | w :: ws => (c :: w) :: ws

/-- Read `name=value`, leading blanks dropped; `none` without a name or an equals sign. -/
def parsePair (cs : List Char) : Option (String × String) :=
  let cs := cs.dropWhile (· = ' ')
  match cs.takeWhile (· ≠ '='), cs.dropWhile (· ≠ '=') with
  | [], _ => none
  | _, [] => none
  | name, _ :: value => some (⟨name⟩, ⟨value⟩)

/-- The cookies of a request header map: the pairs of its `Cookie` lines. -/
def readCookiePairs (h : Header) : List (String × String) :=
  (Header.index h "Cookie").flatMap fun line => (splitChars ';' line.data).filterMap parsePair

/-- The cookies of a response header map: the first pair of each `Set-Cookie` line. -/
def readSetCookiePairs (h : Header) : List (String × String × String) :=
  (Header.index h "Set-Cookie").filterMap fun line =>
    match splitChars ';' line.data with
    | [] => none
    | first :: _ => (parsePair first).map fun nv => (nv.1, nv.2, line)

/-- The check that `gzip.NewReader` and `zlib.NewReader` make at once: too short or wrongly
begun data gives no reader; the reference decoders then report the payload as corrupt. -/
def checkedReader (magic : List Nat) (minLen : Nat) (data : Bytes) :
    Option (Bytes × Option String) :=
  if data.length < minLen then none
  else if data.take magic.length ≠ magic then none
  else some ([], some "flate: corrupt input")

/-- The reference library. -/
def refLib : Lib where
  toLower := asciiLower
  canonicalMIMEHeaderKey := canonicalKey
  newRequestHost := fun method url =>
    if method.data.all isTokenChar then .ok (urlHost url) else .error "net/http: invalid method"
  urlParseError := fun url =>
    if url.data.contains ' ' then some "parse: invalid character in URL" else none
  urlParseHost := urlHost
  newConnectDialerError := fun _ => none
  addCookie := fun h c =>
    let s := c.Name ++ "=" ++ c.Value
    match Header.index h "Cookie" with
    | [] => GoMap.set h "Cookie" [s]
    | c0 :: _ => GoMap.set h "Cookie" [c0 ++ "; " ++ s]
  tlsRequestCookies := fun h => (readCookiePairs h).map fun nv => { Name := nv.1, Value := nv.2 }
  tlsResponseCookies := fun h =>
    (readSetCookiePairs h).map fun nvr => { Name := nvr.1, Value := nvr.2.1, Raw := nvr.2.2 }
  requestCookies := fun h => (readCookiePairs h).map fun nv => { Name := nv.1, Value := nv.2 }
  responseCookies := fun h =>
    (readSetCookiePairs h).map fun nvr => { Name := nvr.1, Value := nvr.2.1, Raw := nvr.2.2 }
  tlsDo := fun _ req =>
    .ok (req, { Status := "200 OK", StatusCode := 200, Header := [("Set-Cookie", ["sid=1"])],
                Body := .ok [111, 107], RequestURL := req.URL })
  httpDo := fun _ req =>
    .ok (req, { Status := "200 OK", StatusCode := 200, Header := [("Set-Cookie", ["sid=1"])],
                Body := .ok [111, 107], RequestURL := req.URL })
  mimeDetect := fun body => if body = [] then "text/plain" else "application/octet-stream"
  gzipNewReader := checkedReader [31, 139, 8] 10
  zlibNewReader := checkedReader [120] 2
  brotliReadAll := fun data => if data = [] then ([], some "unexpected EOF") else ([], some "brotli: corrupt input")

/-! ## Sample clients and requests -/

/-- A ClientHello id for the samples. -/
def sampleHello : ClientHelloID := { Client := "Chrome", Version := "120" }

/-- The TLS client that `NewClient` returns for `sampleHello` without proxy and settings. -/
def sampleTLSClient : Client :=
  { tlsClient := some { Transport := ⟨sampleHello, none, Dialer.direct⟩, Timeout := 30, Jar := [] },
    useTLS := true, http2Headers := none, proxy := "" }

/-- The non-TLS client that `NewClient` returns without proxy. -/
def samplePlainClient : Client :=
  { httpClient := some { Transport := ⟨true, true, none⟩, Jar := [], Timeout := 30 },
    http2Headers := none, useTLS := false, proxy := "" }

/-- A new TLS request for a URL. -/
def sampleTLSRequest : Request :=
  sampleTLSClient.NewRequest.SetURL "https://example.com/"

/-- A new non-TLS request for a URL. -/
def samplePlainRequest : Request :=
  samplePlainClient.NewRequest.SetURL "http://example.com/"

/-- The TLS request of the header-order scenario: master order `[user-agent, accept]` on the
client, and the three headers `user-agent`, `accept` and `x-custom` on the request. -/
def orderedRequest : Request :=
  ((((sampleTLSClient.SetMasterHeaderOrder ["user-agent", "accept"]).NewRequest.SetURL
    "https://example.com/").AddHeader "user-agent" "U").AddHeader "accept" "*/*").AddHeader
    "x-custom" "1"

/-- A request with one cookie `a=1` in its `Cookie` header, as `Client.Do` receives it. -/
def cookieHttpRequest : HttpRequest :=
  { Method := "GET", URL := "https://example.com/", Header := [("Cookie", ["a=1"])],
    Host := "example.com" }

/-- The answer of the reference server to `cookieHttpRequest`: it sets the cookie `sid=1`. -/
def cookieHttpResponse : HttpResponse :=
  { Status := "200 OK", StatusCode := 200, Header := [("Set-Cookie", ["sid=1"])],
    Body := .ok [111, 107], RequestURL := "https://example.com/" }

/-- A response with an encoding that is none of gzip, deflate and br, and a two-byte body. -/
def identityResponse : Response :=
  { headers := [("Content-Encoding", ["identity"])], body := [104, 105], status := "200 OK",
    statusCode := 200 }

/-- A response that announces gzip and has an empty raw body. -/
def emptyGzipResponse : Response :=
  { headers := [("Content-Encoding", ["gzip"])], body := [], status := "204 No Content",
    statusCode := 204 }

/-- The proxy URL of the samples. -/
def sampleProxy : String := "http://127.0.0.1:8888"

/-- A sequence of header calls with empty values among them. -/
def sampleCalls : List HeaderCall :=
  [HeaderCall.setSecHeaders [], HeaderCall.addHeader "accept" "",
   HeaderCall.setHeaders [("accept-language", "en"), ("referer", "")],
   HeaderCall.setUserAgent "U", HeaderCall.addHeader "accept" "a",
   HeaderCall.addHeader "accept" "b", HeaderCall.setHeader "x-instana-t" "1"]

/-- The number of `w` characters at the head of a character list. -/
def leadingW (l : List Char) : Nat := (l.takeWhile (· = 'w')).length

/-! ## The invariant of header maps -/

/-- Every entry of the header map has a non-empty list of values, each a non-empty string. -/
def Header.valuesOK (h : Header) : Prop :=
  ∀ kv ∈ h, kv.2 ≠ [] ∧ ∀ v ∈ kv.2, v ≠ ""

/-- The invariant of a request made by client `c`: both header maps satisfy `valuesOK`, and
the TLS flag and the client pointer are those `NewRequest` has set. -/
def Request.headersOK (c : Client) (r : Request) : Prop :=
  r.TLSRequest.header.valuesOK ∧ r.HTTPRequest.header.valuesOK ∧
  r.useTLS = c.useTLS ∧ r.TLSRequest.client = c.NewRequest.TLSRequest.client

/-! ## Facts about Go maps -/

theorem GoMap.get?_set_self {β : Type} (m : GoMap β) (k : String) (v : β) :
    GoMap.get? (GoMap.set m k v) k = some v := by
  induction m with
  | nil => simp [GoMap.set, GoMap.get?]
  | cons kv m ih =>
    obtain ⟨k1, v1⟩ := kv
    by_cases h : k1 = k
    · simp [GoMap.set, GoMap.get?, h]
    · simp [GoMap.set, GoMap.get?, h, ih]

theorem GoMap.get?_set_ne {β : Type} (m : GoMap β) (k k2 : String) (v : β) (h : k2 ≠ k) :
    GoMap.get? (GoMap.set m k v) k2 = GoMap.get? m k2 := by
  induction m with
  | nil => simp [GoMap.set, GoMap.get?, Ne.symm h]
  | cons kv m ih =>
    obtain ⟨k1, v1⟩ := kv
    by_cases h1 : k1 = k
    · subst h1
      simp [GoMap.set, GoMap.get?, Ne.symm h]
    · by_cases h2 : k1 = k2
      · subst h2
        simp [GoMap.set, GoMap.get?, h]
      · simp [GoMap.set, GoMap.get?, h1, h2, ih]

theorem length_eq_zero_iff_empty (v : String) : v.length = 0 ↔ v = "" := by
  constructor
  · intro h
    obtain ⟨cs⟩ := v
    have hcs : cs = [] := List.length_eq_zero.mp h
    rw [hcs]
  · rintro rfl
    rfl

theorem stringsContains_iff (s substr : String) :
    stringsContains s substr = true ↔ ∃ p q : String, s = p ++ substr ++ q := by
  unfold stringsContains
  rw [decide_eq_true_iff]
  constructor
  · rintro ⟨p, q, h⟩
    refine ⟨⟨p⟩, ⟨q⟩, ?_⟩
    apply String.ext
    simp [String.data_append, h]
  · rintro ⟨p, q, h⟩
    refine ⟨p.data, q.data, ?_⟩
    rw [h]
    simp [String.data_append]

/-! ## The header setters -/

/-- The map write of `AddHeader` with a non-empty value: in the request after the call `k`
holds its previous values followed by `v` and every other key is as it was. -/
theorem AddHeader_written (r : Request) (k v : String) (hv : v ≠ "") :
    (r.useTLS = true →
      GoMap.get? (r.AddHeader k v).TLSRequest.header k
          = some (Header.index r.TLSRequest.header k ++ [v]) ∧
      ∀ k2, k2 ≠ k →
        GoMap.get? (r.AddHeader k v).TLSRequest.header k2 = GoMap.get? r.TLSRequest.header k2) ∧
    (r.useTLS = false →
      GoMap.get? (r.AddHeader k v).HTTPRequest.header k
          = some (Header.index r.HTTPRequest.header k ++ [v]) ∧
      ∀ k2, k2 ≠ k →
        GoMap.get? (r.AddHeader k v).HTTPRequest.header k2
          = GoMap.get? r.HTTPRequest.header k2) := by
  have hlen : ¬ v.length = 0 := fun h => hv ((length_eq_zero_iff_empty v).1 h)
  constructor
  · intro htls
    cases hg : GoMap.get? r.TLSRequest.header k with
    | none =>
      simp only [Request.AddHeader, hlen, htls, hg, if_true, if_false, Header.index,
        Option.getD_none, List.nil_append]
      exact ⟨GoMap.get?_set_self _ _ _, fun k2 h2 => GoMap.get?_set_ne _ _ _ _ h2⟩
    | some old =>
      simp only [Request.AddHeader, hlen, htls, hg, if_true, if_false, Header.index,
        Option.getD_some]
      exact ⟨GoMap.get?_set_self _ _ _, fun k2 h2 => GoMap.get?_set_ne _ _ _ _ h2⟩
  · intro htls
    cases hg : GoMap.get? r.HTTPRequest.header k with
    | none =>
      simp only [Request.AddHeader, hlen, htls, hg, if_false, Header.index,
        Option.getD_none, List.nil_append]
      exact ⟨GoMap.get?_set_self _ _ _, fun k2 h2 => GoMap.get?_set_ne _ _ _ _ h2⟩
    | some old =>
      simp only [Request.AddHeader, hlen, htls, hg, if_false, Header.index,
        Option.getD_some]
      exact ⟨GoMap.get?_set_self _ _ _, fun k2 h2 => GoMap.get?_set_ne _ _ _ _ h2⟩

/-- C3: on a request whose header map in use is allocated, as `NewRequest` allocates it, the
call `AddHeader(k, v)` with a non-empty value returns and leaves `k` with its previous values
(none if `k` was absent) followed by `v`, and every other key as it was, on the TLS request
and on the non-TLS request alike. -/
theorem AddHeader_appends (r : Request) (k v : String) (hv : v ≠ "") :
    (r.useTLS = true → r.TLSRequest.headerNil = false →
      ∃ r1 : Request, r.AddHeaderCall k v = .ok r1 ∧
        GoMap.get? r1.TLSRequest.header k
            = some (Header.index r.TLSRequest.header k ++ [v]) ∧
        ∀ k2, k2 ≠ k →
          GoMap.get? r1.TLSRequest.header k2 = GoMap.get? r.TLSRequest.header k2) ∧
    (r.useTLS = false → r.HTTPRequest.headerNil = false →
      ∃ r1 : Request, r.AddHeaderCall k v = .ok r1 ∧
        GoMap.get? r1.HTTPRequest.header k
            = some (Header.index r.HTTPRequest.header k ++ [v]) ∧
        ∀ k2, k2 ≠ k →
          GoMap.get? r1.HTTPRequest.header k2 = GoMap.get? r.HTTPRequest.header k2) := by
  have hlen : ¬ v.length = 0 := fun h => hv ((length_eq_zero_iff_empty v).1 h)
  constructor
  · intro htls hnil
    refine ⟨r.AddHeader k v, ?_, (AddHeader_written r k v hv).1 htls⟩
    simp [Request.AddHeaderCall, hlen, htls, hnil]
  · intro htls hnil
    refine ⟨r.AddHeader k v, ?_, (AddHeader_written r k v hv).2 htls⟩
    simp [Request.AddHeaderCall, hlen, htls, hnil]

/-- Witness of C3: on a new TLS request a second `accept` value is appended and `user-agent`
keeps its value; on a new non-TLS request the first `accept` value is stored. -/
theorem AddHeader_appends_witness :
    (∃ r1 : Request,
      ((sampleTLSRequest.AddHeader "user-agent" "U").AddHeader "accept" "a").AddHeaderCall
        "accept" "b" = .ok r1 ∧
      GoMap.get? r1.TLSRequest.header "accept" = some ["a", "b"] ∧
      GoMap.get? r1.TLSRequest.header "user-agent" = some ["U"]) ∧
    (∃ r1 : Request,
      samplePlainRequest.AddHeaderCall "accept" "a" = .ok r1 ∧
      GoMap.get? r1.HTTPRequest.header "accept" = some ["a"]) := by
  obtain ⟨r1, h1, h2, h3⟩ :=
    (AddHeader_appends ((sampleTLSRequest.AddHeader "user-agent" "U").AddHeader "accept" "a")
      "accept" "b" (by decide)).1 rfl rfl
  obtain ⟨r2, g1, g2, _⟩ :=
    (AddHeader_appends samplePlainRequest "accept" "a" (by decide)).2 rfl rfl
  exact ⟨⟨r1, h1, h2, (h3 "user-agent" (by decide)).trans (by decide)⟩, ⟨r2, g1, g2⟩⟩

/-- On the zero value `Request{}`, whose header maps are nil, `AddHeader` with a non-empty
value panics at the map write. -/
theorem AddHeaderCall_zero_value :
    ({} : Request).AddHeaderCall "accept" "a" = .panic "assignment to entry in nil map" := by
  decide

/-- The map write of `SetHeader`: the request after the call is the request itself when `v`
is empty or `k` contains `x-instana`, and otherwise `k` holds `[v]` and every other key is as
it was. -/
theorem SetHeader_written (r : Request) (k v : String) :
    ((v = "" ∨ ∃ p q : String, k = p ++ "x-instana" ++ q) → r.SetHeader k v = r) ∧
    (¬ (v = "" ∨ ∃ p q : String, k = p ++ "x-instana" ++ q) →
      (r.useTLS = true →
        GoMap.get? (r.SetHeader k v).TLSRequest.header k = some [v] ∧
        ∀ k2, k2 ≠ k →
          GoMap.get? (r.SetHeader k v).TLSRequest.header k2
            = GoMap.get? r.TLSRequest.header k2) ∧
      (r.useTLS = false →
        GoMap.get? (r.SetHeader k v).HTTPRequest.header k = some [v] ∧
        ∀ k2, k2 ≠ k →
          GoMap.get? (r.SetHeader k v).HTTPRequest.header k2
            = GoMap.get? r.HTTPRequest.header k2)) := by
  constructor
  · rintro (hv | hk)
    · simp [Request.SetHeader, (length_eq_zero_iff_empty v).2 hv]
    · have hc : stringsContains k "x-instana" = true := (stringsContains_iff _ _).2 hk
      simp [Request.SetHeader, hc]
  · intro h
    have hlen : ¬ v.length = 0 := fun h0 => h (Or.inl ((length_eq_zero_iff_empty v).1 h0))
    have hc : ¬ stringsContains k "x-instana" = true :=
      fun h0 => h (Or.inr ((stringsContains_iff _ _).1 h0))
    constructor
    · intro htls
      simp only [Request.SetHeader, hlen, hc, htls, if_true, if_false]
      exact ⟨GoMap.get?_set_self _ _ _, fun k2 h2 => GoMap.get?_set_ne _ _ _ _ h2⟩
    · intro htls
      simp only [Request.SetHeader, hlen, hc, htls, if_false]
      exact ⟨GoMap.get?_set_self _ _ _, fun k2 h2 => GoMap.get?_set_ne _ _ _ _ h2⟩

/-- C4: the call `SetHeader(k, v)` returns the request entirely unchanged when `v` is empty or
`k` contains `x-instana`; otherwise, on a request whose header map in use is allocated, as
`NewRequest` allocates it, the call returns and `k` holds exactly `[v]` afterwards, whatever it
held before, and every other key is as it was, on the TLS request and on the non-TLS
request. -/
theorem SetHeader_replaces (r : Request) (k v : String) :
    ((v = "" ∨ ∃ p q : String, k = p ++ "x-instana" ++ q) →
      r.SetHeaderCall k v = .ok r ∧ r.SetHeader k v = r) ∧
    (¬ (v = "" ∨ ∃ p q : String, k = p ++ "x-instana" ++ q) →
      (r.useTLS = true → r.TLSRequest.headerNil = false →
        ∃ r1 : Request, r.SetHeaderCall k v = .ok r1 ∧
          GoMap.get? r1.TLSRequest.header k = some [v] ∧
          ∀ k2, k2 ≠ k →
            GoMap.get? r1.TLSRequest.header k2 = GoMap.get? r.TLSRequest.header k2) ∧
      (r.useTLS = false → r.HTTPRequest.headerNil = false →
        ∃ r1 : Request, r.SetHeaderCall k v = .ok r1 ∧
          GoMap.get? r1.HTTPRequest.header k = some [v] ∧
          ∀ k2, k2 ≠ k →
            GoMap.get? r1.HTTPRequest.header k2 = GoMap.get? r.HTTPRequest.header k2)) := by
  constructor
  · intro h
    refine ⟨?_, (SetHeader_written r k v).1 h⟩
    rcases h with hv | hk
    · simp [Request.SetHeaderCall, (length_eq_zero_iff_empty v).2 hv]
    · have hc : stringsContains k "x-instana" = true := (stringsContains_iff _ _).2 hk
      simp [Request.SetHeaderCall, hc]
  · intro h
    have hlen : ¬ v.length = 0 := fun h0 => h (Or.inl ((length_eq_zero_iff_empty v).1 h0))
    have hc : ¬ stringsContains k "x-instana" = true :=
      fun h0 => h (Or.inr ((stringsContains_iff _ _).1 h0))
    constructor
    · intro htls hnil
      refine ⟨r.SetHeader k v, ?_, ((SetHeader_written r k v).2 h).1 htls⟩
      simp [Request.SetHeaderCall, hlen, hc, htls, hnil]
    · intro htls hnil
      refine ⟨r.SetHeader k v, ?_, ((SetHeader_written r k v).2 h).2 htls⟩
      simp [Request.SetHeaderCall, hlen, hc, htls, hnil]

/-- Witness of C4: an `x-instana` key is dropped, and on a TLS request `accept` with two
values is replaced by the single new value while `user-agent` keeps its value. -/
theorem SetHeader_replaces_witness :
    (sampleTLSRequest.AddHeader "accept" "a").SetHeaderCall "x-instana-t" "1"
      = .ok (sampleTLSRequest.AddHeader "accept" "a") ∧
    (∃ r1 : Request,
      (((sampleTLSRequest.AddHeader "user-agent" "U").AddHeader "accept" "a").AddHeader
        "accept" "b").SetHeaderCall "accept" "c" = .ok r1 ∧
      GoMap.get? r1.TLSRequest.header "accept" = some ["c"] ∧
      GoMap.get? r1.TLSRequest.header "user-agent" = some ["U"]) := by
  obtain ⟨r1, h1, h2, h3⟩ :=
    ((SetHeader_replaces (((sampleTLSRequest.AddHeader "user-agent" "U").AddHeader "accept"
      "a").AddHeader "accept" "b") "accept" "c").2
      (fun h => absurd ((stringsContains_iff "accept" "x-instana").2 (h.resolve_left (by decide)))
        (by decide))).1 rfl rfl
  exact ⟨((SetHeader_replaces (sampleTLSRequest.AddHeader "accept" "a") "x-instana-t" "1").1
      (Or.inr ⟨"", "-t", by decide⟩)).1,
    ⟨r1, h1, h2, (h3 "user-agent" (by decide)).trans (by decide)⟩⟩

/-- On the zero value `Request{}`, whose header maps are nil, `SetHeader` with a non-empty
value and an ordinary key panics at the map write. -/
theorem SetHeaderCall_zero_value :
    ({} : Request).SetHeaderCall "accept" "a" = .panic "assignment to entry in nil map" := by
  decide

/-- The method `SetHeaderOrder` returns every request as it is, TLS or not. -/
theorem SetHeaderOrder_eq_self (r : Request) (order : List String) :
    r.SetHeaderOrder order = r := by
  unfold Request.SetHeaderOrder
  split <;> rfl

/-- C2, the code at the failing input: on a new TLS request `SetHeaderOrder` with a two-key
order leaves `HeaderOrder` empty, so that `Do` goes on with the built-in default order. -/
theorem SetHeaderOrder_ignored_on_TLS :
    sampleTLSRequest.useTLS = true ∧
    (sampleTLSRequest.SetHeaderOrder ["accept", "user-agent"]).HeaderOrder = [] ∧
    (sampleTLSRequest.SetHeaderOrder ["accept", "user-agent"]).headerOrder
      = .ok defaultHeaderOrder := by
  decide

/-! ## Client construction -/

/-- C9: with `useTLS = true` and no optional parameter `NewClient` returns the error "missing
client hello" (and no client) for every proxy URL and timeout; with `useTLS = false` and an
empty proxy URL it returns a non-TLS client and no error, whatever the optional parameters. -/
theorem NewClient_missing_client_hello (lib : Lib) (proxyUrl : String) (timeout : Int)
    (optParams : List OptParam) :
    NewClient lib proxyUrl timeout true [] = .err "missing client hello" ∧
    ∃ c : Client, NewClient lib "" timeout false optParams = .ok c ∧ c.useTLS = false ∧
      c.httpClient = some { Transport := ⟨true, true, none⟩, Jar := [], Timeout := timeout } := by
  constructor
  · simp [NewClient]
  · refine ⟨{ httpClient := some { Transport := ⟨true, true, none⟩, Jar := [], Timeout := timeout },
               http2Headers := none, useTLS := false, proxy := "" }, ?_, rfl, rfl⟩
    simp [NewClient]

/-- The sample clients are what `NewClient` returns with the reference library. -/
theorem NewClient_samples :
    NewClient refLib "" 30 true [OptParam.clientHelloID sampleHello] = .ok sampleTLSClient ∧
    NewClient refLib "" 30 false [] = .ok samplePlainClient := by
  decide

/-! ## The active header order -/

/-- The three cases of the local `headerOrder` of `Do`, and the shape of the default list. -/
theorem headerOrder_cases (r : Request) :
    (r.HeaderOrder ≠ [] → r.headerOrder = .ok r.HeaderOrder) ∧
    (r.HeaderOrder = [] → ∀ c : Client, r.TLSRequest.client = some c →
      c.MasterHeaderOrder ≠ [] → r.headerOrder = .ok c.MasterHeaderOrder) ∧
    (r.HeaderOrder = [] → ∀ c : Client, r.TLSRequest.client = some c →
      c.MasterHeaderOrder = [] → r.headerOrder = .ok defaultHeaderOrder) ∧
    defaultHeaderOrder.length = 28 ∧
    defaultHeaderOrder.head? = some "host" ∧
    defaultHeaderOrder.getLast? = some "authorization" ∧
    (∀ k ∈ defaultHeaderOrder, ∀ ch ∈ k.data, ch.isUpper = false) := by
  refine ⟨?_, ?_, ?_, by decide, by decide, by decide, by decide⟩
  · intro h
    have hl : r.HeaderOrder.length ≠ 0 := fun h0 => h (List.length_eq_zero.mp h0)
    simp [Request.headerOrder, hl]
  · intro h c hc hm
    have hl : c.MasterHeaderOrder.length ≠ 0 := fun h0 => hm (List.length_eq_zero.mp h0)
    simp [Request.headerOrder, h, hc, hl]
  · intro h c hc hm
    simp [Request.headerOrder, h, hc, hm]

/-! ## The request that `Do` builds on the TLS path -/

theorem matchLoop_ok (lib : Lib) (key : String) (header : List (String × List String))
    (hne : ∀ kv ∈ header, kv.2 ≠ []) (headerMap : GoMap String) :
    ∃ headerMap1, matchLoop lib key header headerMap = .ok headerMap1 := by
  induction header generalizing headerMap with
  | nil => exact ⟨headerMap, rfl⟩
  | cons kv rest ih =>
    obtain ⟨k, v⟩ := kv
    have hv : v ≠ [] := hne (k, v) (List.mem_cons_self _ _)
    have hrest : ∀ kv ∈ rest, kv.2 ≠ [] := fun kv h => hne kv (List.mem_cons_of_mem _ h)
    cases v with
    | nil => exact absurd rfl hv
    | cons v0 vt =>
      by_cases hk : key = lib.toLower k
      · rw [matchLoop, if_pos hk]
        exact ih hrest _
      · rw [matchLoop, if_neg hk]
        exact ih hrest _

theorem orderLoop_ok (lib : Lib) (header : Header) (hne : ∀ kv ∈ header, kv.2 ≠ [])
    (order : List String) (headerMap : GoMap String) (headerOrderKey : List String) :
    ∃ headerMap1,
      orderLoop lib header order (headerMap, headerOrderKey)
        = .ok (headerMap1, headerOrderKey ++ order) := by
  induction order generalizing headerMap headerOrderKey with
  | nil => exact ⟨headerMap, by simp [orderLoop]⟩
  | cons key rest ih =>
    obtain ⟨hm1, h1⟩ := matchLoop_ok lib key header hne headerMap
    obtain ⟨hm2, h2⟩ := ih hm1 (headerOrderKey ++ [key])
    refine ⟨hm2, ?_⟩
    simp only [orderLoop, h1, Result.bind, h2, List.append_assoc, List.singleton_append]

theorem setLoop_ok (lib : Lib) (header : List (String × List String))
    (hne : ∀ kv ∈ header, kv.2 ≠ []) (h0 : Header) :
    ∃ h1, setLoop lib header h0 = .ok h1 ∧
      ∀ key, (∀ kv ∈ header, lib.canonicalMIMEHeaderKey kv.1 ≠ key) →
        GoMap.get? h1 key = GoMap.get? h0 key := by
  induction header generalizing h0 with
  | nil => exact ⟨h0, rfl, fun _ _ => rfl⟩
  | cons kv rest ih =>
    obtain ⟨k, v⟩ := kv
    have hv : v ≠ [] := hne (k, v) (List.mem_cons_self _ _)
    have hrest : ∀ kv ∈ rest, kv.2 ≠ [] := fun kv h => hne kv (List.mem_cons_of_mem _ h)
    cases v with
    | nil => exact absurd rfl hv
    | cons v0 vt =>
      obtain ⟨h1, hok, hkeep⟩ := ih hrest (Header.Set lib h0 k v0)
      refine ⟨h1, ?_, ?_⟩
      · simp only [setLoop, index0, Result.bind, hok]
      · intro key hkey
        rw [hkeep key (fun kv h => hkey kv (List.mem_cons_of_mem _ h))]
        exact GoMap.get?_set_ne _ _ _ _ (Ne.symm (hkey (k, v0 :: vt) (List.mem_cons_self _ _)))

theorem Do_of_DoTLSRequest (lib : Lib) (r : Request) (c : Client) (req : HttpRequest)
    (hTLS : r.useTLS = true) (hc : r.TLSRequest.client = some c)
    (hreq : r.DoTLSRequest lib = .ok req) :
    r.Do lib = c.Do lib (some req) none true := by
  simp only [Request.Do, hTLS, if_true, hreq, Result.bind, hc]

/-- C1, what the code does: on a TLS request whose `NewRequest` succeeds, whose active header
order is `L`, and whose header keys all hold a value and are not the order key itself, `Do`
builds a request and hands it to `Client.Do`, and the `HeaderOrderKey` entry of that request
is `L` alone: no key of the header map is appended, whether it occurs in `L` or not. -/
theorem Do_headerOrderKey_is_order (lib : Lib) (r : Request) (c : Client) (host : String)
    (L : List String)
    (hTLS : r.useTLS = true)
    (hc : r.TLSRequest.client = some c)
    (hreq : lib.newRequestHost r.TLSRequest.method r.TLSRequest.url = .ok host)
    (hL : r.headerOrder = .ok L)
    (hne : ∀ kv ∈ r.TLSRequest.header, kv.2 ≠ [])
    (hkey : ∀ kv ∈ r.TLSRequest.header, lib.canonicalMIMEHeaderKey kv.1 ≠ HeaderOrderKey) :
    ∃ req : HttpRequest,
      r.DoTLSRequest lib = .ok req ∧
      r.Do lib = c.Do lib (some req) none true ∧
      GoMap.get? req.Header HeaderOrderKey = some L := by
  obtain ⟨hm1, h1⟩ := orderLoop_ok lib r.TLSRequest.header hne L [] []
  obtain ⟨hd, hset, hkeep⟩ := setLoop_ok lib r.TLSRequest.header hne
    [(HeaderOrderKey, L), (PHeaderOrderKey, [":method", ":authority", ":scheme", ":path"])]
  have hget : GoMap.get? hd HeaderOrderKey = some L := by
    rw [hkeep HeaderOrderKey hkey]
    simp [GoMap.get?]
  have hbuild : ∃ req : HttpRequest, r.DoTLSRequest lib = .ok req ∧ req.Header = hd := by
    simp only [Request.DoTLSRequest, libNewRequest, hreq, Result.bind, hL, h1, restLoop,
      List.nil_append, hset]
    by_cases hh : r.TLSRequest.host.length > 0
    · rw [if_pos hh]
      cases r.Context <;> exact ⟨_, rfl, rfl⟩
    · rw [if_neg hh]
      cases r.Context <;> exact ⟨_, rfl, rfl⟩
  obtain ⟨req, hreq1, hhd⟩ := hbuild
  exact ⟨req, hreq1, Do_of_DoTLSRequest lib r c req hTLS hc hreq1, hhd ▸ hget⟩

/-- Witness of C1, the failing input: with master order `[user-agent, accept]` and the headers
`user-agent`, `accept` and `x-custom`, the order list handed on is `[user-agent, accept]`;
`x-custom`, which the header map holds, is not appended. -/
theorem Do_headerOrderKey_is_order_witness :
    GoMap.get? orderedRequest.TLSRequest.header "x-custom" = some ["1"] ∧
    ∃ req : HttpRequest,
      orderedRequest.DoTLSRequest refLib = .ok req ∧
      orderedRequest.Do refLib
        = (sampleTLSClient.SetMasterHeaderOrder ["user-agent", "accept"]).Do refLib (some req)
            none true ∧
      GoMap.get? req.Header HeaderOrderKey = some ["user-agent", "accept"] :=
  ⟨by decide,
   Do_headerOrderKey_is_order refLib orderedRequest
    (sampleTLSClient.SetMasterHeaderOrder ["user-agent", "accept"]) "example.com"
    ["user-agent", "accept"] rfl rfl rfl rfl (by decide) (by decide)⟩

theorem DoTLSRequest_orderKey (lib : Lib) (r : Request) (host : String) (L : List String)
    (hreq : lib.newRequestHost r.TLSRequest.method r.TLSRequest.url = .ok host)
    (hL : r.headerOrder = .ok L)
    (hne : ∀ kv ∈ r.TLSRequest.header, kv.2 ≠ [])
    (hkey : ∀ kv ∈ r.TLSRequest.header, lib.canonicalMIMEHeaderKey kv.1 ≠ HeaderOrderKey) :
    ∃ req : HttpRequest,
      r.DoTLSRequest lib = .ok req ∧ GoMap.get? req.Header HeaderOrderKey = some L := by
  obtain ⟨hm1, h1⟩ := orderLoop_ok lib r.TLSRequest.header hne L [] []
  obtain ⟨hd, hset, hkeep⟩ := setLoop_ok lib r.TLSRequest.header hne
    [(HeaderOrderKey, L), (PHeaderOrderKey, [":method", ":authority", ":scheme", ":path"])]
  have hget : GoMap.get? hd HeaderOrderKey = some L := by
    rw [hkeep HeaderOrderKey hkey]
    simp [GoMap.get?]
  simp only [Request.DoTLSRequest, libNewRequest, hreq, Result.bind, hL, h1, restLoop,
    List.nil_append, hset]
  by_cases hh : r.TLSRequest.host.length > 0
  · rw [if_pos hh]
    cases r.Context <;> exact ⟨_, rfl, hget⟩
  · rw [if_neg hh]
    cases r.Context <;> exact ⟨_, rfl, hget⟩

/-- C10: `Request.Do` on a TLS request, with `c` the client the request points to when `Do`
runs, builds a request and hands it to `Client.Do`, and the order list of that request is the
active header order: the request's `HeaderOrder` when that is non-empty, otherwise the
client's `MasterHeaderOrder` when that is non-empty, otherwise the built-in default, which has
28 keys without an upper-case letter, the first `host`, the last `authorization`. (The
request must pass `NewRequest` and its header keys must hold a value and not be the order key
itself.) -/
theorem Do_active_header_order (lib : Lib) (r : Request) (c : Client) (host : String)
    (hTLS : r.useTLS = true)
    (hc : r.TLSRequest.client = some c)
    (hreq : lib.newRequestHost r.TLSRequest.method r.TLSRequest.url = .ok host)
    (hne : ∀ kv ∈ r.TLSRequest.header, kv.2 ≠ [])
    (hkey : ∀ kv ∈ r.TLSRequest.header, lib.canonicalMIMEHeaderKey kv.1 ≠ HeaderOrderKey) :
    (∃ req : HttpRequest,
      r.DoTLSRequest lib = .ok req ∧
      r.Do lib = c.Do lib (some req) none true ∧
      GoMap.get? req.Header HeaderOrderKey
        = some (if r.HeaderOrder ≠ [] then r.HeaderOrder
                else if c.MasterHeaderOrder ≠ [] then c.MasterHeaderOrder
                else defaultHeaderOrder)) ∧
    defaultHeaderOrder.length = 28 ∧
    defaultHeaderOrder.head? = some "host" ∧
    defaultHeaderOrder.getLast? = some "authorization" ∧
    (∀ k ∈ defaultHeaderOrder, ∀ ch ∈ k.data, ch.isUpper = false) := by
  have hL : r.headerOrder = .ok (if r.HeaderOrder ≠ [] then r.HeaderOrder
      else if c.MasterHeaderOrder ≠ [] then c.MasterHeaderOrder else defaultHeaderOrder) := by
    by_cases h1 : r.HeaderOrder ≠ []
    · rw [if_pos h1]
      exact (headerOrder_cases r).1 h1
    · rw [if_neg h1]
      have h1e : r.HeaderOrder = [] := not_not.mp h1
      by_cases h2 : c.MasterHeaderOrder ≠ []
      · rw [if_pos h2]
        exact (headerOrder_cases r).2.1 h1e c hc h2
      · rw [if_neg h2]
        exact (headerOrder_cases r).2.2.1 h1e c hc (not_not.mp h2)
  obtain ⟨req, hreq1, hget⟩ := DoTLSRequest_orderKey lib r host _ hreq hL hne hkey
  exact ⟨⟨req, hreq1, Do_of_DoTLSRequest lib r c req hTLS hc hreq1, hget⟩,
    (headerOrder_cases r).2.2.2⟩

/-- Witness of C10: a request order wins over the master order of the client; a master order
set on the client after `NewRequest` is the one `Do` uses; and without either `Do` uses the
default. -/
theorem Do_active_header_order_witness :
    (∃ req : HttpRequest,
      ({ orderedRequest with HeaderOrder := ["accept"] } : Request).DoTLSRequest refLib
        = .ok req ∧
      GoMap.get? req.Header HeaderOrderKey = some ["accept"]) ∧
    (∃ req : HttpRequest,
      (sampleTLSRequest.withClient
        (sampleTLSClient.SetMasterHeaderOrder ["user-agent", "accept"])).DoTLSRequest refLib
        = .ok req ∧
      GoMap.get? req.Header HeaderOrderKey = some ["user-agent", "accept"]) ∧
    (∃ req : HttpRequest,
      sampleTLSRequest.DoTLSRequest refLib = .ok req ∧
      GoMap.get? req.Header HeaderOrderKey = some defaultHeaderOrder) := by
  obtain ⟨⟨q1, a1, _, a3⟩, _⟩ :=
    Do_active_header_order refLib ({ orderedRequest with HeaderOrder := ["accept"] } : Request)
      (sampleTLSClient.SetMasterHeaderOrder ["user-agent", "accept"]) "example.com"
      rfl rfl rfl (by decide) (by decide)
  obtain ⟨⟨q2, b1, _, b3⟩, _⟩ :=
    Do_active_header_order refLib
      (sampleTLSRequest.withClient (sampleTLSClient.SetMasterHeaderOrder ["user-agent", "accept"]))
      (sampleTLSClient.SetMasterHeaderOrder ["user-agent", "accept"]) "example.com"
      rfl rfl rfl (by decide) (by decide)
  obtain ⟨⟨q3, c1, _, c3⟩, _⟩ :=
    Do_active_header_order refLib sampleTLSRequest sampleTLSClient "example.com"
      rfl rfl rfl (by decide) (by decide)
  exact ⟨⟨q1, a1, a3⟩, ⟨q2, b1, b3⟩, ⟨q3, c1, c3⟩⟩

theorem AddHeader_fold_single (k : String) (vs : List String) (hvs : ∀ v ∈ vs, v ≠ "")
    (r : Request) (w : List String) (hTLS : r.useTLS = true)
    (hh : r.TLSRequest.header = [(k, w)]) :
    vs.foldl (fun r v => r.AddHeader k v) r
      = { r with TLSRequest := { r.TLSRequest with header := [(k, w ++ vs)] } } := by
  induction vs generalizing r w with
  | nil =>
    simp only [List.foldl_nil, List.append_nil, ← hh]
  | cons v rest ih =>
    have hv : ¬ v.length = 0 :=
      fun h => hvs v (List.mem_cons_self _ _) ((length_eq_zero_iff_empty v).1 h)
    have hstep : r.AddHeader k v
        = { r with TLSRequest := { r.TLSRequest with header := [(k, w ++ [v])] } } := by
      simp [Request.AddHeader, hv, hTLS, hh, GoMap.get?, GoMap.set]
    have hrest := ih (fun v hm => hvs v (List.mem_cons_of_mem _ hm))
      { r with TLSRequest := { r.TLSRequest with header := [(k, w ++ [v])] } } (w ++ [v])
      hTLS rfl
    rw [List.foldl_cons, hstep, hrest]
    simp

/-- C5, what the code does: after `AddHeader` calls with the non-empty values `v1, vs...` for
one key `k` on a new TLS request, the header map holds all of them in order, but the request
that `Do` builds and hands to `Client.Do` carries for `k` the first value `v1` alone. -/
theorem Do_sends_first_value_only (lib : Lib) (r0 : Request) (c : Client) (host k v1 : String)
    (vs : List String)
    (hTLS : r0.useTLS = true)
    (hc : r0.TLSRequest.client = some c)
    (hfresh : r0.TLSRequest.header = [])
    (hreq : lib.newRequestHost r0.TLSRequest.method r0.TLSRequest.url = .ok host)
    (hv1 : v1 ≠ "") (hvs : ∀ v ∈ vs, v ≠ "") :
    GoMap.get? ((v1 :: vs).foldl (fun r v => r.AddHeader k v) r0).TLSRequest.header k
      = some (v1 :: vs) ∧
    ∃ req : HttpRequest,
      ((v1 :: vs).foldl (fun r v => r.AddHeader k v) r0).DoTLSRequest lib = .ok req ∧
      ((v1 :: vs).foldl (fun r v => r.AddHeader k v) r0).Do lib
        = c.Do lib (some req) none true ∧
      GoMap.get? req.Header (lib.canonicalMIMEHeaderKey k) = some [v1] := by
  have hv : ¬ v1.length = 0 := fun h => hv1 ((length_eq_zero_iff_empty v1).1 h)
  have hfirst : r0.AddHeader k v1
      = { r0 with TLSRequest := { r0.TLSRequest with header := [(k, [v1])] } } := by
    simp [Request.AddHeader, hv, hTLS, hfresh, GoMap.get?, GoMap.set]
  have hall : (v1 :: vs).foldl (fun r v => r.AddHeader k v) r0
      = { r0 with TLSRequest := { r0.TLSRequest with header := [(k, v1 :: vs)] } } := by
    have hrest := AddHeader_fold_single k vs hvs
      { r0 with TLSRequest := { r0.TLSRequest with header := [(k, [v1])] } } [v1] hTLS rfl
    rw [List.foldl_cons, hfirst, hrest]
    simp
  rw [hall]
  refine ⟨by simp [GoMap.get?], ?_⟩
  have hL : ∃ L, ({ r0 with TLSRequest := { r0.TLSRequest with header := [(k, v1 :: vs)] } }
      : Request).headerOrder = .ok L := by
    simp only [Request.headerOrder, hc]
    split
    · exact ⟨_, rfl⟩
    · split <;> exact ⟨_, rfl⟩
  obtain ⟨L, hL⟩ := hL
  obtain ⟨hm1, h1⟩ := orderLoop_ok lib [(k, v1 :: vs)] (by simp) L [] []
  have hbuild : ∃ req : HttpRequest,
      ({ r0 with TLSRequest := { r0.TLSRequest with header := [(k, v1 :: vs)] } }
        : Request).DoTLSRequest lib = .ok req ∧
      req.Header = Header.Set lib [(HeaderOrderKey, L),
        (PHeaderOrderKey, [":method", ":authority", ":scheme", ":path"])] k v1 := by
    simp only [Request.DoTLSRequest, libNewRequest, hreq, Result.bind, hL, h1, restLoop,
      List.nil_append, setLoop, index0]
    by_cases hh : r0.TLSRequest.host.length > 0
    · rw [if_pos hh]
      cases r0.Context <;> exact ⟨_, rfl, rfl⟩
    · rw [if_neg hh]
      cases r0.Context <;> exact ⟨_, rfl, rfl⟩
  obtain ⟨req, hreq1, hhd⟩ := hbuild
  refine ⟨req, hreq1, Do_of_DoTLSRequest lib _ c req hTLS hc hreq1, ?_⟩
  rw [hhd]
  exact GoMap.get?_set_self _ _ _

/-- Witness of C5, the failing input: two `AddHeader` calls for `accept` with the values `a`
and `b` leave both in the header map, and the request built by `Do` carries `a` alone. -/
theorem Do_sends_first_value_only_witness :
    GoMap.get? ((sampleTLSRequest.AddHeader "accept" "a").AddHeader "accept" "b").TLSRequest.header
        "accept" = some ["a", "b"] ∧
    ∃ req : HttpRequest,
      ((sampleTLSRequest.AddHeader "accept" "a").AddHeader "accept" "b").DoTLSRequest refLib
        = .ok req ∧
      ((sampleTLSRequest.AddHeader "accept" "a").AddHeader "accept" "b").Do refLib
        = sampleTLSClient.Do refLib (some req) none true ∧
      GoMap.get? req.Header "Accept" = some ["a"] :=
  Do_sends_first_value_only refLib sampleTLSRequest sampleTLSClient "example.com" "accept" "a"
    ["b"] rfl rfl rfl rfl (by decide) (by decide)

/-- The non-TLS branch of `Do` hands on the header map as it is, with every value of a key. -/
theorem DoHTTPRequest_keeps_all_values :
    ∃ req : HttpRequest,
      ((samplePlainRequest.AddHeader "accept" "a").AddHeader "accept" "b").DoHTTPRequest refLib
        = .ok req ∧
      GoMap.get? req.Header "accept" = some ["a", "b"] :=
  ⟨_, rfl, by decide⟩

/-! ## Cookies of the response -/

theorem foldl_append_singleton {α β : Type} (f : α → β) (l : List α) (init : List β) :
    l.foldl (fun cs v => cs ++ [f v]) init = init ++ l.map f := by
  induction l generalizing init with
  | nil => simp
  | cons a l ih => simp [ih]

/-- C6, what the code does: a successful `Client.Do` on the TLS path returns a response whose
`Cookies()` is the cookies set by the server followed by the cookies of the sent request, and
whose `RequestCookies()` is empty: the second loop appends to `cookies`. -/
theorem Do_TLS_cookies_merged (lib : Lib) (c : Client) (tlsClient : TLSHttpClient)
    (req sent : HttpRequest) (resp : HttpResponse) (body : Bytes)
    (hclient : c.tlsClient = some tlsClient)
    (hdo : lib.tlsDo tlsClient req = .ok (sent, resp))
    (hbody : resp.Body = .ok body) :
    ∃ R : Response,
      c.Do lib (some req) none true = .ok R ∧
      R.Cookies = (lib.tlsResponseCookies resp.Header).map toHTTPCookie
                    ++ (lib.tlsRequestCookies sent.Header).map toHTTPCookie ∧
      R.RequestCookies = [] := by
  simp only [Client.Do, if_true, hclient, hdo, hbody]
  exact ⟨_, rfl, by simp [Response.Cookies, foldl_append_singleton], rfl⟩

/-- Witness of C6, the failing input: the request carries the cookie `a=1`, the server sets
`sid=1`; the response lists both under `Cookies()` and nothing under `RequestCookies()`. -/
theorem Do_TLS_cookies_merged_witness :
    ∃ R : Response,
      sampleTLSClient.Do refLib (some cookieHttpRequest) none true = .ok R ∧
      R.Cookies = [{ Name := "sid", Value := "1", Raw := "sid=1" }, { Name := "a", Value := "1" }] ∧
      R.RequestCookies = [] :=
  Do_TLS_cookies_merged refLib sampleTLSClient
    { Transport := ⟨sampleHello, none, Dialer.direct⟩, Timeout := 30, Jar := [] }
    cookieHttpRequest cookieHttpRequest cookieHttpResponse [111, 107] rfl rfl rfl

/-- The non-TLS path of `Client.Do` keeps the two lists apart: `Cookies()` is the cookies of
the response and `RequestCookies()` the cookies of the sent request. -/
theorem Do_plain_cookies (lib : Lib) (c : Client) (httpClient : HTTPClient)
    (req sent : HttpRequest) (resp : HttpResponse) (body : Bytes)
    (hclient : c.httpClient = some httpClient)
    (hdo : lib.httpDo httpClient req = .ok (sent, resp))
    (hbody : resp.Body = .ok body) :
    ∃ R : Response,
      c.Do lib none (some req) false = .ok R ∧
      R.Cookies = lib.responseCookies resp.Header ∧
      R.RequestCookies = lib.requestCookies sent.Header := by
  simp only [Client.Do, hclient, hdo, hbody]
  exact ⟨_, rfl, rfl, rfl⟩

/-! ## Decoding the body -/

/-- C7 as stated fails: for the encoding `identity`, which is non-empty and none of gzip,
deflate and br, `Body` returns the raw body (and prints two lines); no failure reaches the
caller. -/
theorem Body_unknown_encoding_counterexample :
    identityResponse.Body refLib []
      = .ok ([104, 105], ["application/octet-stream", "UNKNOWN ENCODING: identity"]) := by
  decide

/-- C7 as amended: when the encoding in force (the first parameter of `Body` if there is one,
otherwise the `Content-Encoding` header) is non-empty and none of gzip, deflate and br, `Body`
returns the stored raw body as it is, and the only trace of the unknown encoding is the
printed line `UNKNOWN ENCODING: ` followed by the encoding. -/
theorem Body_unknown_encoding_returns_raw (lib : Lib) (r : Response) (params : List String)
    (enc : String)
    (henc : enc = params.head?.getD (Header.Get lib r.headers "Content-Encoding"))
    (hne : enc ≠ "") (hg : enc ≠ "gzip") (hd : enc ≠ "deflate") (hb : enc ≠ "br") :
    r.Body lib params
      = .ok (r.body, [lib.mimeDetect r.body, "UNKNOWN ENCODING: " ++ enc]) := by
  cases params with
  | nil =>
    simp only [List.head?_nil, Option.getD_none] at henc
    have hlen : ¬ enc.length = 0 := fun h => hne ((length_eq_zero_iff_empty _).1 h)
    simp [Response.Body, ← henc, hg, hd, hb, hlen]
  | cons p0 rest =>
    simp only [List.head?_cons, Option.getD_some] at henc
    subst henc
    simp [Response.Body, hg, hd, hb]

/-- Witness of C7 as amended, on the response with the encoding `identity`. -/
theorem Body_unknown_encoding_returns_raw_witness :
    identityResponse.Body refLib []
      = .ok (identityResponse.body,
          [refLib.mimeDetect identityResponse.body, "UNKNOWN ENCODING: " ++ "identity"]) :=
  Body_unknown_encoding_returns_raw refLib identityResponse [] "identity" (by decide)
    (by decide) (by decide) (by decide) (by decide)

/-- C8, what the code does: there is no check of the length of the raw body. With an empty
raw body and the encoding gzip, `Body` calls `gUnzipData` on the empty data; `gzip.NewReader`
finds no header and returns a nil reader, and reading it panics. -/
theorem Body_empty_gzip_panics (lib : Lib) (r : Response)
    (hbody : r.body = [])
    (henc : Header.Get lib r.headers "Content-Encoding" = "gzip")
    (hlib : lib.gzipNewReader [] = none) :
    r.Body lib [] = .panic "invalid memory address or nil pointer dereference" := by
  have hlen : ¬ "gzip".length = 0 := by decide
  simp [Response.Body, henc, hbody, gUnzipData, hlib, Result.bind, hlen]

/-- Witness of C8, the failing input: a response that announces gzip with an empty raw body. -/
theorem Body_empty_gzip_panics_witness :
    emptyGzipResponse.body = [] ∧
    emptyGzipResponse.Body refLib [] = .panic "invalid memory address or nil pointer dereference" :=
  ⟨rfl, Body_empty_gzip_panics refLib emptyGzipResponse rfl (by decide) (by decide)⟩

/-- Without an encoding, on the header or as a parameter, `Body` returns the raw body, empty
or not, without calling a decoder. -/
theorem Body_without_encoding (lib : Lib) (r : Response)
    (henc : Header.Get lib r.headers "Content-Encoding" = "") :
    r.Body lib [] = .ok (r.body, [lib.mimeDetect r.body]) := by
  simp [Response.Body, henc]

/-! ## Removing `www` -/

theorem leadingW_cons_w (l : List Char) : leadingW ('w' :: l) = leadingW l + 1 := by
  simp [leadingW, List.takeWhile]

theorem leadingW_cons_ne (c : Char) (l : List Char) (h : c ≠ 'w') : leadingW (c :: l) = 0 := by
  simp [leadingW, List.takeWhile, h]

theorem leadingW_pos (l : List Char) (h : 1 ≤ leadingW l) : ∃ t, l = 'w' :: t := by
  cases l with
  | nil => simp [leadingW] at h
  | cons a t =>
    by_cases ha : a = 'w'
    · exact ⟨t, by rw [ha]⟩
    · rw [leadingW_cons_ne a t ha] at h
      omega

theorem www_infix_cons (c : Char) (t : List Char)
    (h : List.IsInfix ['w', 'w', 'w'] (c :: t)) :
    (c = 'w' ∧ 2 ≤ leadingW t) ∨ List.IsInfix ['w', 'w', 'w'] t := by
  obtain ⟨p, q, hpq⟩ := h
  cases p with
  | nil =>
    left
    simp only [List.nil_append, List.cons_append, List.cons.injEq] at hpq
    obtain ⟨hc, ht⟩ := hpq
    refine ⟨hc.symm, ?_⟩
    rw [← ht]
    simp [leadingW_cons_w]
  | cons a p =>
    right
    simp only [List.cons_append, List.cons.injEq] at hpq
    exact ⟨p, q, by simpa using hpq.2⟩

theorem replace_www_aux (n : Nat) : ∀ l : List Char, l.length ≤ n →
    ¬ List.IsInfix ['w', 'w', 'w'] (replaceChars ['w', 'w', 'w'] [] 0 l) ∧
    leadingW (replaceChars ['w', 'w', 'w'] [] 0 l) = leadingW l % 3 := by
  induction n with
  | zero =>
    intro l hl
    have : l = [] := List.length_eq_zero.mp (Nat.le_zero.mp hl)
    subst this
    refine ⟨?_, by simp [replaceChars, leadingW]⟩
    rintro ⟨p, q, h⟩
    simp [replaceChars] at h
  | succ n ih =>
    intro l hl
    cases l with
    | nil =>
      refine ⟨?_, by simp [replaceChars, leadingW]⟩
      rintro ⟨p, q, h⟩
      simp [replaceChars] at h
    | cons c cs =>
      have hcs : cs.length ≤ n := by simpa using hl
      by_cases hpre : (c :: cs).take 3 = ['w', 'w', 'w']
      · obtain ⟨rest, hrest⟩ : ∃ rest, c :: cs = 'w' :: 'w' :: 'w' :: rest := by
          refine ⟨(c :: cs).drop 3, ?_⟩
          have := List.take_append_drop 3 (c :: cs)
          rw [hpre] at this
          exact this.symm
        have hc : c = 'w' := by simpa using (List.cons.inj hrest).1
        have hcs2 : cs = 'w' :: 'w' :: rest := (List.cons.inj hrest).2
        subst hc
        subst hcs2
        have hlen : rest.length ≤ n := by simp at hcs; omega
        have hval : replaceChars ['w', 'w', 'w'] [] 0 ('w' :: 'w' :: 'w' :: rest)
            = replaceChars ['w', 'w', 'w'] [] 0 rest := by
          simp [replaceChars]
        rw [hval]
        obtain ⟨h1, h2⟩ := ih rest hlen
        refine ⟨h1, ?_⟩
        rw [h2]
        simp [leadingW_cons_w]
        omega
      · have hval : replaceChars ['w', 'w', 'w'] [] 0 (c :: cs)
            = c :: replaceChars ['w', 'w', 'w'] [] 0 cs := by
          simp only [replaceChars, List.length_cons, List.length_nil]
          rw [if_neg hpre]
        rw [hval]
        obtain ⟨h1, h2⟩ := ih cs hcs
        by_cases hc : c = 'w'
        · subst hc
          have hlw : leadingW cs < 2 := by
            by_contra hge
            apply hpre
            obtain ⟨t, rfl⟩ := leadingW_pos cs (by omega)
            rw [leadingW_cons_w] at hge
            obtain ⟨u, rfl⟩ := leadingW_pos t (by omega)
            rfl
          have hmod : leadingW cs % 3 = leadingW cs := Nat.mod_eq_of_lt (by omega)
          constructor
          · intro hin
            rcases www_infix_cons _ _ hin with ⟨_, h⟩ | h
            · rw [h2, hmod] at h
              omega
            · exact h1 h
          · rw [leadingW_cons_w, leadingW_cons_w, h2, hmod]
            exact (Nat.mod_eq_of_lt (by omega)).symm
        · constructor
          · intro hin
            rcases www_infix_cons _ _ hin with ⟨h, _⟩ | h
            · exact hc h
            · exact h1 h
          · rw [leadingW_cons_ne c _ hc, leadingW_cons_ne c _ hc]

/-- After `strings.Replace(s, "www", "", -1)` no `www` is left in the string. -/
theorem stringsReplaceAll_www_free (s : String) :
    stringsContains (stringsReplaceAll s "www" "") "www" = false := by
  have h := (replace_www_aux s.data.length s.data (Nat.le_refl _)).1
  have hdata : (stringsReplaceAll s "www" "").data
      = replaceChars ['w', 'w', 'w'] [] 0 s.data := by
    simp [stringsReplaceAll]
  simp only [stringsContains, hdata, decide_eq_false_iff_not]
  exact h

/-! ## The cookie handed to the jar -/

/-- C11: for a URL that parses with host `h`, `SetCookieValue` hands the jar of the client (TLS
or not) one `SetCookies` call with exactly one cookie: the given name and value, the first
path argument or `/` as `Path`, and as `Domain` the host with the occurrences of `www`
removed, in which no `www` is left; `wwwservice.example` gives `service.example` and
`www.example.com` gives `.example.com`. -/
theorem SetCookieValue_hands_one_cookie (lib : Lib) (c : Client)
    (cookieUrl cookieName value h : String) (path : List String)
    (hparse : lib.urlParseError cookieUrl = none)
    (hhost : lib.urlParseHost cookieUrl = h) :
    (∀ tlsClient : TLSHttpClient, c.useTLS = true → c.tlsClient = some tlsClient →
      c.SetCookieValue lib cookieUrl cookieName value path
        = .ok { c with tlsClient := some { tlsClient with
            Jar := tlsClient.Jar ++
              [(cookieUrl, [{ Name := cookieName, Value := value, Path := path.head?.getD "/",
                              Domain := stringsReplaceAll h "www" "" }])] } }) ∧
    (∀ httpClient : HTTPClient, c.useTLS = false → c.httpClient = some httpClient →
      c.SetCookieValue lib cookieUrl cookieName value path
        = .ok { c with httpClient := some { httpClient with
            Jar := httpClient.Jar ++
              [(cookieUrl, [{ Name := cookieName, Value := value, Path := path.head?.getD "/",
                              Domain := stringsReplaceAll h "www" "" }])] } }) ∧
    stringsContains (stringsReplaceAll h "www" "") "www" = false ∧
    stringsReplaceAll "wwwservice.example" "www" "" = "service.example" ∧
    stringsReplaceAll "www.example.com" "www" "" = ".example.com" := by
  have hpath : (match path with
      | p0 :: _ => p0
      | [] => "/") = path.head?.getD "/" := by
    cases path <;> rfl
  refine ⟨?_, ?_, stringsReplaceAll_www_free h, by decide, by decide⟩
  · intro tlsClient htls hclient
    simp only [Client.SetCookieValue, hparse, htls, if_true, hclient, hhost, hpath,
      List.nil_append]
  · intro httpClient htls hclient
    simp only [Client.SetCookieValue, hparse, htls, hclient, hhost, hpath, List.nil_append]
    rfl

/-- Witness of C11: on the sample TLS client the host `wwwservice.example` gives a cookie for
the domain `service.example` with the default path, and on the sample non-TLS client the host
`www.example.com` gives a cookie for `.example.com` with the given path. -/
theorem SetCookieValue_hands_one_cookie_witness :
    sampleTLSClient.SetCookieValue refLib "https://wwwservice.example/a" "n" "v" []
      = .ok { sampleTLSClient with
          tlsClient := some {
            Transport := ⟨sampleHello, none, Dialer.direct⟩,
            Timeout := 30,
            Jar := [("https://wwwservice.example/a",
                      [{ Name := "n", Value := "v", Path := "/", Domain := "service.example" }])] } } ∧
    samplePlainClient.SetCookieValue refLib "http://www.example.com/a" "n" "v" ["/a", "/b"]
      = .ok { samplePlainClient with
          httpClient := some {
            Transport := ⟨true, true, none⟩,
            Timeout := 30,
            Jar := [("http://www.example.com/a",
                      [{ Name := "n", Value := "v", Path := "/a", Domain := ".example.com" }])] } } :=
  ⟨(SetCookieValue_hands_one_cookie refLib sampleTLSClient "https://wwwservice.example/a" "n" "v"
      "wwwservice.example" [] rfl (by decide)).1
      { Transport := ⟨sampleHello, none, Dialer.direct⟩, Timeout := 30, Jar := [] } rfl rfl,
   (SetCookieValue_hands_one_cookie refLib samplePlainClient "http://www.example.com/a" "n" "v"
      "www.example.com" ["/a", "/b"] rfl (by decide)).2.1
      { Transport := ⟨true, true, none⟩, Timeout := 30, Jar := [] } rfl rfl⟩

/-! ## The transport after `UpdateProxy` -/

/-- C12, what the code does: a TLS client built by `NewClient` without a proxy URL from the
ClientHello id `h` and the settings `s` stores `s` but not `h` (its `clientHello` is the zero
value), so a successful `UpdateProxy(p)` rebuilds the transport from the zero ClientHello id
and `s`. -/
theorem UpdateProxy_after_direct_NewClient (lib : Lib) (timeout : Int) (h : ClientHelloID)
    (s : Option (List (Nat × Nat))) (rest : List OptParam) (p : String)
    (hrest : (rest = [] ∧ s = none) ∨ ∃ more, rest = OptParam.settings s :: more)
    (hdial : lib.newConnectDialerError p = none) :
    ∃ c c2 : Client,
      NewClient lib "" timeout true (OptParam.clientHelloID h :: rest) = .ok c ∧
      c.clientHello = { Client := "", Version := "" } ∧
      c.http2Headers = s ∧
      c.tlsClient.map (fun t => t.Transport) = some ⟨h, s, Dialer.direct⟩ ∧
      c.UpdateProxy lib p = .ok (c2, true) ∧
      c2.clientHello = { Client := "", Version := "" } ∧
      c2.http2Headers = s ∧
      c2.tlsClient.map (fun t => t.Transport)
        = some ⟨{ Client := "", Version := "" }, s,
                if p.length > 0 then Dialer.connect p else Dialer.direct⟩ := by
  have hnew : NewClient lib "" timeout true (OptParam.clientHelloID h :: rest)
      = .ok { tlsClient := some
                { Transport := ⟨h, s, Dialer.direct⟩, Timeout := timeout, Jar := [] },
              useTLS := true, http2Headers := s, proxy := "" } := by
    rcases hrest with ⟨rfl, rfl⟩ | ⟨more, rfl⟩ <;>
      simp [NewClient, OptParam.assertClientHelloID, OptParam.assertSettings, Result.bind]
  refine ⟨_, ?_, hnew, rfl, rfl, rfl, ?_⟩
  · exact { tlsClient := some
              { Transport := ⟨{ Client := "", Version := "" }, s,
                  if p.length > 0 then Dialer.connect p else Dialer.direct⟩,
                Timeout := timeout, Jar := [] },
            useTLS := true, http2Headers := s, proxy := p }
  · by_cases hp : p.length > 0
    · simp [Client.UpdateProxy, hp, hdial]
    · simp [Client.UpdateProxy, hp]

/-- Witness of C12, the failing input: the client built without proxy from the sample
ClientHello id loses that id when the proxy is updated. -/
theorem UpdateProxy_after_direct_NewClient_witness :
    sampleHello ≠ { Client := "", Version := "" } ∧
    ∃ c c2 : Client,
      NewClient refLib "" 30 true [OptParam.clientHelloID sampleHello] = .ok c ∧
      c.clientHello = { Client := "", Version := "" } ∧
      c.http2Headers = none ∧
      c.tlsClient.map (fun t => t.Transport) = some ⟨sampleHello, none, Dialer.direct⟩ ∧
      c.UpdateProxy refLib sampleProxy = .ok (c2, true) ∧
      c2.clientHello = { Client := "", Version := "" } ∧
      c2.http2Headers = none ∧
      c2.tlsClient.map (fun t => t.Transport)
        = some ⟨{ Client := "", Version := "" }, none, Dialer.connect sampleProxy⟩ :=
  ⟨by decide,
   UpdateProxy_after_direct_NewClient refLib 30 sampleHello none [] sampleProxy
    (Or.inl ⟨rfl, rfl⟩) rfl⟩

/-- A TLS client built by `NewClient` with a proxy URL stores both the ClientHello id and the
settings, and a successful `UpdateProxy` rebuilds the transport from them. -/
theorem UpdateProxy_after_proxy_NewClient (lib : Lib) (proxyUrl : String) (timeout : Int)
    (h : ClientHelloID) (s : Option (List (Nat × Nat))) (p : String)
    (hlen : proxyUrl.length > 0)
    (hparse : lib.urlParseError proxyUrl = none)
    (hdial0 : lib.newConnectDialerError proxyUrl = none)
    (hdial : lib.newConnectDialerError p = none) :
    ∃ c c2 : Client,
      NewClient lib proxyUrl timeout true [OptParam.clientHelloID h, OptParam.settings s]
        = .ok c ∧
      c.clientHello = h ∧ c.http2Headers = s ∧
      c.UpdateProxy lib p = .ok (c2, true) ∧
      c2.clientHello = h ∧ c2.http2Headers = s ∧
      c2.tlsClient.map (fun t => t.Transport)
        = some ⟨h, s, if p.length > 0 then Dialer.connect p else Dialer.direct⟩ := by
  have hnew : NewClient lib proxyUrl timeout true
      [OptParam.clientHelloID h, OptParam.settings s]
      = .ok { tlsClient := some
                { Jar := [], Transport := ⟨h, s, Dialer.connect proxyUrl⟩,
                  Timeout := timeout },
              useTLS := true, clientHello := h, http2Headers := s, proxy := proxyUrl } := by
    simp [NewClient, OptParam.assertClientHelloID, OptParam.assertSettings, Result.bind, hlen,
      hparse, hdial0]
  refine ⟨_, ?_, hnew, rfl, rfl, ?_⟩
  · exact { tlsClient := some
              { Jar := [],
                Transport := ⟨h, s, if p.length > 0 then Dialer.connect p else Dialer.direct⟩,
                Timeout := timeout },
            useTLS := true, clientHello := h, http2Headers := s, proxy := p }
  · by_cases hp : p.length > 0
    · simp [Client.UpdateProxy, hp, hdial]
    · simp [Client.UpdateProxy, hp]

/-! ## Header values are never empty -/

theorem GoMap.mem_set {β : Type} (m : GoMap β) (k : String) (v : β) (kv : String × β)
    (h : kv ∈ GoMap.set m k v) : kv = (k, v) ∨ kv ∈ m := by
  induction m with
  | nil =>
    simp only [GoMap.set, List.mem_singleton] at h
    exact Or.inl h
  | cons e m ih =>
    obtain ⟨k1, v1⟩ := e
    by_cases hk : k1 = k
    · simp only [GoMap.set, hk, if_true, List.mem_cons] at h
      rcases h with h | h
      · exact Or.inl h
      · exact Or.inr (List.mem_cons_of_mem _ h)
    · simp only [GoMap.set, hk, if_false, List.mem_cons] at h
      rcases h with h | h
      · exact Or.inr (h ▸ List.mem_cons_self _ _)
      · rcases ih h with h | h
        · exact Or.inl h
        · exact Or.inr (List.mem_cons_of_mem _ h)

theorem GoMap.mem_of_get? {β : Type} (m : GoMap β) (k : String) (v : β)
    (h : GoMap.get? m k = some v) : (k, v) ∈ m := by
  induction m with
  | nil => simp [GoMap.get?] at h
  | cons e m ih =>
    obtain ⟨k1, v1⟩ := e
    by_cases hk : k1 = k
    · simp only [GoMap.get?, hk, if_true, Option.some.injEq] at h
      rw [hk, h]
      exact List.mem_cons_self _ _
    · simp only [GoMap.get?, hk, if_false] at h
      exact List.mem_cons_of_mem _ (ih h)

theorem valuesOK_set (h : Header) (k : String) (vs : List String) (hok : h.valuesOK)
    (hne : vs ≠ []) (hvs : ∀ v ∈ vs, v ≠ "") : Header.valuesOK (GoMap.set h k vs) := by
  intro kv hkv
  rcases GoMap.mem_set h k vs kv hkv with rfl | hmem
  · exact ⟨hne, hvs⟩
  · exact hok kv hmem

theorem valuesOK_add (h : Header) (k v : String) (hok : h.valuesOK) (hv : v ≠ "") :
    Header.valuesOK (match GoMap.get? h k with
      | some header => GoMap.set h k (header ++ [v])
      | none => GoMap.set h k [v]) := by
  cases hg : GoMap.get? h k with
  | none => exact valuesOK_set h k [v] hok (by simp) (by simpa using hv)
  | some old =>
    have hold := (hok (k, old) (GoMap.mem_of_get? h k old hg)).2
    refine valuesOK_set h k (old ++ [v]) hok (by simp) ?_
    intro w hw
    rcases List.mem_append.mp hw with hw | hw
    · exact hold w hw
    · rw [List.mem_singleton.mp hw]
      exact hv

theorem AddHeader_headersOK (c : Client) (r : Request) (k v : String) (h : r.headersOK c) :
    (r.AddHeader k v).headersOK c := by
  obtain ⟨h1, h2, h3, h4⟩ := h
  by_cases hv : v.length = 0
  · simp only [Request.AddHeader, hv, if_true]
    exact ⟨h1, h2, h3, h4⟩
  · have hne : v ≠ "" := fun h0 => hv ((length_eq_zero_iff_empty v).2 h0)
    by_cases ht : r.useTLS = true
    · have hadd := valuesOK_add r.TLSRequest.header k v h1 hne
      simp only [Request.AddHeader, hv, if_false, ht, if_true]
      cases hg : GoMap.get? r.TLSRequest.header k with
      | none =>
        rw [hg] at hadd
        exact ⟨hadd, h2, ht ▸ h3, h4⟩
      | some old =>
        rw [hg] at hadd
        exact ⟨hadd, h2, ht ▸ h3, h4⟩
    · have hadd := valuesOK_add r.HTTPRequest.header k v h2 hne
      have hf : r.useTLS = false := by simpa using ht
      simp only [Request.AddHeader, hv, if_false, hf, Bool.false_eq_true]
      cases hg : GoMap.get? r.HTTPRequest.header k with
      | none =>
        rw [hg] at hadd
        exact ⟨h1, hadd, hf ▸ h3, h4⟩
      | some old =>
        rw [hg] at hadd
        exact ⟨h1, hadd, hf ▸ h3, h4⟩

theorem SetHeader_headersOK (c : Client) (r : Request) (k v : String) (h : r.headersOK c) :
    (r.SetHeader k v).headersOK c := by
  obtain ⟨h1, h2, h3, h4⟩ := h
  by_cases hv : v.length = 0
  · simp only [Request.SetHeader, hv, if_true]
    exact ⟨h1, h2, h3, h4⟩
  · have hne : v ≠ "" := fun h0 => hv ((length_eq_zero_iff_empty v).2 h0)
    have hset1 := valuesOK_set r.TLSRequest.header k [v] h1 (by simp) (by simpa using hne)
    have hset2 := valuesOK_set r.HTTPRequest.header k [v] h2 (by simp) (by simpa using hne)
    unfold Request.SetHeader
    rw [if_neg hv]
    split
    · exact ⟨h1, h2, h3, h4⟩
    · split
      · exact ⟨hset1, h2, h3, h4⟩
      · exact ⟨h1, hset2, h3, h4⟩

theorem SetHeaders_headersOK (c : Client) (headers : GoMap String) (r : Request)
    (h : r.headersOK c) : (r.SetHeaders headers).headersOK c := by
  unfold Request.SetHeaders
  induction headers generalizing r with
  | nil => exact h
  | cons kv rest ih => exact ih _ (SetHeader_headersOK c r kv.1 kv.2 h)

theorem run_headersOK (c : Client) (r : Request) (call : HeaderCall) (h : r.headersOK c) :
    (call.run r).headersOK c := by
  cases call with
  | addHeader key value => exact AddHeader_headersOK c r key value h
  | setHeader key value => exact SetHeader_headersOK c r key value h
  | setHeaders headers => exact SetHeaders_headersOK c headers r h
  | setUserAgent ua => exact AddHeader_headersOK c r _ ua h
  | setSecHeaders version =>
    simp only [HeaderCall.run, Request.SetSecHeaders]
    repeat apply AddHeader_headersOK
    exact h

theorem NewRequest_headersOK (c : Client) : c.NewRequest.headersOK c := by
  refine ⟨?_, ?_, ?_, rfl⟩
  · unfold Client.NewRequest
    split <;> exact fun kv hkv => absurd hkv (List.not_mem_nil _)
  · unfold Client.NewRequest
    split <;> exact fun kv hkv => absurd hkv (List.not_mem_nil _)
  · unfold Client.NewRequest
    split
    · next ht => exact ht.symm
    · next ht => simpa using ht

theorem foldl_run_headersOK (c : Client) (calls : List HeaderCall) (r : Request)
    (h : r.headersOK c) : (calls.foldl (fun r call => call.run r) r).headersOK c := by
  induction calls generalizing r with
  | nil => exact h
  | cons call rest ih => exact ih _ (run_headersOK c r call h)

theorem DoTLSRequest_ok (lib : Lib) (r : Request) (c : Client) (host : String)
    (hc : r.TLSRequest.client = some c)
    (hreq : lib.newRequestHost r.TLSRequest.method r.TLSRequest.url = .ok host)
    (hne : ∀ kv ∈ r.TLSRequest.header, kv.2 ≠ []) :
    ∃ req : HttpRequest, r.DoTLSRequest lib = .ok req := by
  have hL : ∃ L, r.headerOrder = .ok L := by
    simp only [Request.headerOrder, hc]
    split
    · exact ⟨_, rfl⟩
    · split <;> exact ⟨_, rfl⟩
  obtain ⟨L, hL⟩ := hL
  obtain ⟨hm1, h1⟩ := orderLoop_ok lib r.TLSRequest.header hne L [] []
  obtain ⟨hd, hset, _⟩ := setLoop_ok lib r.TLSRequest.header hne
    [(HeaderOrderKey, L), (PHeaderOrderKey, [":method", ":authority", ":scheme", ":path"])]
  simp only [Request.DoTLSRequest, libNewRequest, hreq, Result.bind, hL, h1, restLoop,
    List.nil_append, hset]
  by_cases hh : r.TLSRequest.host.length > 0
  · rw [if_pos hh]
    cases r.Context <;> exact ⟨_, rfl⟩
  · rw [if_neg hh]
    cases r.Context <;> exact ⟨_, rfl⟩

/-- C13: after every sequence of `AddHeader`, `SetHeader`, `SetHeaders`, `SetUserAgent` and
`SetSecHeaders` calls on a request made by `NewRequest`, every entry of the request's header
maps has a non-empty list of values that are non-empty strings; hence on a TLS client `Do`
builds its request without a panic: it returns the error of `NewRequest`, or else every
`v[0]` is found and the request is built. -/
theorem header_values_never_empty (c : Client) (calls : List HeaderCall) :
    (∀ kv ∈ (calls.foldl (fun r call => call.run r) c.NewRequest).TLSRequest.header,
      kv.2 ≠ [] ∧ ∀ v ∈ kv.2, v ≠ "") ∧
    (∀ kv ∈ (calls.foldl (fun r call => call.run r) c.NewRequest).HTTPRequest.header,
      kv.2 ≠ [] ∧ ∀ v ∈ kv.2, v ≠ "") ∧
    (c.useTLS = true → ∀ lib : Lib,
      (∀ host : String,
        lib.newRequestHost
            (calls.foldl (fun r call => call.run r) c.NewRequest).TLSRequest.method
            (calls.foldl (fun r call => call.run r) c.NewRequest).TLSRequest.url = .ok host →
        ∃ req : HttpRequest,
          (calls.foldl (fun r call => call.run r) c.NewRequest).DoTLSRequest lib = .ok req) ∧
      (∀ e : String,
        lib.newRequestHost
            (calls.foldl (fun r call => call.run r) c.NewRequest).TLSRequest.method
            (calls.foldl (fun r call => call.run r) c.NewRequest).TLSRequest.url = .error e →
        (calls.foldl (fun r call => call.run r) c.NewRequest).DoTLSRequest lib = .err e)) := by
  obtain ⟨h1, h2, _, h4⟩ := foldl_run_headersOK c calls c.NewRequest (NewRequest_headersOK c)
  refine ⟨h1, h2, ?_⟩
  intro htls lib
  have hclient : (calls.foldl (fun r call => call.run r) c.NewRequest).TLSRequest.client
      = some c := by
    rw [h4]
    simp [Client.NewRequest, htls]
  constructor
  · intro host hreq
    exact DoTLSRequest_ok lib _ c host hclient hreq (fun kv hkv => (h1 kv hkv).1)
  · intro e hreq
    simp only [Request.DoTLSRequest, libNewRequest, hreq, Result.bind]

/-- Witness of C13: after the sample calls, some with empty values, on a new request of the
sample TLS client, `accept` holds two non-empty values, no entry is empty, and `Do` builds its
request. -/
theorem header_values_never_empty_witness :
    GoMap.get? (sampleCalls.foldl (fun r call => call.run r) sampleTLSClient.NewRequest
      ).TLSRequest.header "accept" = some ["a", "b"] ∧
    (∀ kv ∈ (sampleCalls.foldl (fun r call => call.run r) sampleTLSClient.NewRequest
      ).TLSRequest.header, kv.2 ≠ [] ∧ ∀ v ∈ kv.2, v ≠ "") ∧
    ∃ req : HttpRequest,
      (sampleCalls.foldl (fun r call => call.run r) sampleTLSClient.NewRequest).DoTLSRequest
        refLib = .ok req :=
  ⟨by decide,
   (header_values_never_empty sampleTLSClient sampleCalls).1,
   ((header_values_never_empty sampleTLSClient sampleCalls).2.2 rfl refLib).1 "" rfl⟩

/-! ## The header map of a request made by `NewRequest` stays allocated -/

theorem AddHeader_frame (r : Request) (k v : String) :
    (r.AddHeader k v).useTLS = r.useTLS ∧
    (r.AddHeader k v).TLSRequest.headerNil = r.TLSRequest.headerNil ∧
    (r.AddHeader k v).HTTPRequest.headerNil = r.HTTPRequest.headerNil := by
  unfold Request.AddHeader
  split
  · exact ⟨rfl, rfl, rfl⟩
  · split
    · split <;> exact ⟨rfl, rfl, rfl⟩
    · split <;> exact ⟨rfl, rfl, rfl⟩

theorem SetHeader_frame (r : Request) (k v : String) :
    (r.SetHeader k v).useTLS = r.useTLS ∧
    (r.SetHeader k v).TLSRequest.headerNil = r.TLSRequest.headerNil ∧
    (r.SetHeader k v).HTTPRequest.headerNil = r.HTTPRequest.headerNil := by
  unfold Request.SetHeader
  split
  · exact ⟨rfl, rfl, rfl⟩
  · split
    · exact ⟨rfl, rfl, rfl⟩
    · split <;> exact ⟨rfl, rfl, rfl⟩

theorem SetHeaders_frame (headers : GoMap String) (r : Request) :
    (r.SetHeaders headers).useTLS = r.useTLS ∧
    (r.SetHeaders headers).TLSRequest.headerNil = r.TLSRequest.headerNil ∧
    (r.SetHeaders headers).HTTPRequest.headerNil = r.HTTPRequest.headerNil := by
  unfold Request.SetHeaders
  induction headers generalizing r with
  | nil => exact ⟨rfl, rfl, rfl⟩
  | cons kv rest ih =>
    obtain ⟨h1, h2, h3⟩ := ih (r.SetHeader kv.1 kv.2)
    obtain ⟨g1, g2, g3⟩ := SetHeader_frame r kv.1 kv.2
    exact ⟨h1.trans g1, h2.trans g2, h3.trans g3⟩

theorem AddHeader_useTLS (r : Request) (k v : String) :
    (r.AddHeader k v).useTLS = r.useTLS := (AddHeader_frame r k v).1

theorem AddHeader_tlsNil (r : Request) (k v : String) :
    (r.AddHeader k v).TLSRequest.headerNil = r.TLSRequest.headerNil := (AddHeader_frame r k v).2.1

theorem AddHeader_httpNil (r : Request) (k v : String) :
    (r.AddHeader k v).HTTPRequest.headerNil = r.HTTPRequest.headerNil :=
  (AddHeader_frame r k v).2.2

theorem run_frame (r : Request) (call : HeaderCall) :
    (call.run r).useTLS = r.useTLS ∧
    (call.run r).TLSRequest.headerNil = r.TLSRequest.headerNil ∧
    (call.run r).HTTPRequest.headerNil = r.HTTPRequest.headerNil := by
  cases call with
  | addHeader key value => exact AddHeader_frame r key value
  | setHeader key value => exact SetHeader_frame r key value
  | setHeaders headers => exact SetHeaders_frame headers r
  | setUserAgent ua => exact AddHeader_frame r _ ua
  | setSecHeaders version =>
    simp only [HeaderCall.run, Request.SetSecHeaders, AddHeader_useTLS, AddHeader_tlsNil,
      AddHeader_httpNil, and_self]

/-- After any sequence of header calls on a request made by `NewRequest`, the header map of
the half in use is allocated, so `AddHeader` and `SetHeader` return on it. -/
theorem NewRequest_calls_allocated (c : Client) (calls : List HeaderCall) :
    (calls.foldl (fun r call => call.run r) c.NewRequest).useTLS = c.useTLS ∧
    (c.useTLS = true →
      (calls.foldl (fun r call => call.run r) c.NewRequest).TLSRequest.headerNil = false) ∧
    (c.useTLS = false →
      (calls.foldl (fun r call => call.run r) c.NewRequest).HTTPRequest.headerNil = false) := by
  have hfold : ∀ (calls : List HeaderCall) (r : Request),
      (calls.foldl (fun r call => call.run r) r).useTLS = r.useTLS ∧
      (calls.foldl (fun r call => call.run r) r).TLSRequest.headerNil
        = r.TLSRequest.headerNil ∧
      (calls.foldl (fun r call => call.run r) r).HTTPRequest.headerNil
        = r.HTTPRequest.headerNil := by
    intro calls
    induction calls with
    | nil => exact fun r => ⟨rfl, rfl, rfl⟩
    | cons call rest ih =>
      intro r
      obtain ⟨h1, h2, h3⟩ := ih (call.run r)
      obtain ⟨g1, g2, g3⟩ := run_frame r call
      exact ⟨h1.trans g1, h2.trans g2, h3.trans g3⟩
  obtain ⟨h1, h2, h3⟩ := hfold calls c.NewRequest
  refine ⟨?_, ?_, ?_⟩
  · rw [h1]
    unfold Client.NewRequest
    split
    · next ht => exact ht.symm
    · next ht => simpa using ht
  · intro ht
    rw [h2]
    simp [Client.NewRequest, ht]
  · intro ht
    rw [h3]
    simp [Client.NewRequest, ht]

end Cclient


